import Mathlib

/-!
# Verification of the eth-oxford-26 rebalancing pipeline

Shallow embedding of the decision pipeline of the repository
(`backend/core/slippage.py`, `backend/core/garch.py`,
`backend/core/error_map.py`, `backend/quantum/optimizer.py`,
`backend/agents/manager.py`, `backend/blockchain/relayer.py`)
and proofs about it.

Python floats are modelled as real numbers, Python ints as `ℤ`/`ℕ`.
External effects (the GARCH fitter of the `arch` library, the Gaussian
perturbation drawn in the market agent, wall-clock solver time, RPC
responses of the chain) are modelled as explicit inputs of the embedded
functions, so that every embedded function is a pure function of its
inputs exactly as the Python code is a pure function of its inputs and of
those effects.
-/

open Classical

set_option maxRecDepth 8000

noncomputable section

namespace EthOxford

/-! ## Slippage model — `backend/core/slippage.py` -/

/-- `ImpactParams` dataclass of `core/slippage.py` (defaults
`alpha=0.10`, `beta=0.60`, `safety_margin_bps=50`, `max_impact_pct=0.05`). -/
structure ImpactParams where
  alpha : ℝ := 0.10
  beta : ℝ := 0.60
  safety_margin_bps : ℤ := 50
  max_impact_pct : ℝ := 0.05

/-- `ASSET_IMPACT_PARAMS` table of `core/slippage.py`. -/
def ASSET_IMPACT_PARAMS (symbol : String) : Option ImpactParams :=
  if symbol = "BTC" then some { alpha := 0.05, beta := 0.55 }
  else if symbol = "ETH" then some { alpha := 0.06, beta := 0.55 }
  else if symbol = "SUI" then some { alpha := 0.12, beta := 0.65 }
  else if symbol = "SOL" then some { alpha := 0.08, beta := 0.60 }
  else if symbol = "AVAX" then some { alpha := 0.10, beta := 0.60 }
  else none

/-- `DEFAULT_PARAMS` of `core/slippage.py`. -/
def DEFAULT_PARAMS : ImpactParams := {}

/-- `MOCK_DAILY_VOLUMES` table of `core/slippage.py`; the `.get(symbol,
500_000_000)` default of `estimate_market_impact` is folded in. -/
def MOCK_DAILY_VOLUMES (symbol : String) : ℝ :=
  if symbol = "BTC" then 25000000000
  else if symbol = "ETH" then 12000000000
  else if symbol = "SUI" then 400000000
  else if symbol = "SOL" then 2500000000
  else if symbol = "AVAX" then 300000000
  else 500000000

/-- `SlippageEstimate` dataclass of `core/slippage.py`. -/
structure SlippageEstimate where
  symbol : String
  order_size_usd : ℝ
  daily_volume_usd : ℝ
  volume_fraction : ℝ
  raw_impact_pct : ℝ
  safety_margin_pct : ℝ
  total_slippage_pct : ℝ
  min_out_usd : ℝ
  min_out_mist : ℤ
  alpha : ℝ
  beta : ℝ
  exceeds_max_impact : Bool
  model_used : String := "almgren_chriss"

/-- Python `int(x)` on a float: truncation toward zero. -/
def truncInt (x : ℝ) : ℤ := if 0 ≤ x then ⌊x⌋ else ⌈x⌉

/-- `p = params or ASSET_IMPACT_PARAMS.get(symbol, DEFAULT_PARAMS)` in
`estimate_market_impact`. -/
def effParams (symbol : String) (params : Option ImpactParams) : ImpactParams :=
  params.getD ((ASSET_IMPACT_PARAMS symbol).getD DEFAULT_PARAMS)

/-- `estimate_market_impact` of `core/slippage.py`.  The Python default
`daily_volume_usd=None` and the falsiness of `0.0` in
`volume = daily_volume_usd or MOCK_DAILY_VOLUMES.get(...)` are modelled by
the `Option` argument and the `= 0` test. -/
def estimate_market_impact (symbol : String) (order_size_usd : ℝ)
    (daily_volume_usd : Option ℝ := none) (params : Option ImpactParams := none)
    (sui_price_usd : ℝ := 1.0) : SlippageEstimate :=
  let p := effParams symbol params
  let volume := match daily_volume_usd with
    | some v => if v = 0 then MOCK_DAILY_VOLUMES symbol else v
    | none => MOCK_DAILY_VOLUMES symbol
  let fraction := if 0 < volume then order_size_usd / volume else 1.0
  let raw_impact := p.alpha * fraction ^ p.beta
  let safety := (p.safety_margin_bps : ℝ) / 10000
  let total_slip := raw_impact + safety
  let exceeds := p.max_impact_pct < raw_impact
  let min_out_usd := order_size_usd * (1.0 - total_slip)
  let min_out_sui := if 0 < sui_price_usd then min_out_usd / sui_price_usd else 0
  let min_out_mist := truncInt (min_out_sui * 1000000000)
  { symbol := symbol
    order_size_usd := order_size_usd
    daily_volume_usd := volume
    volume_fraction := fraction
    raw_impact_pct := raw_impact
    safety_margin_pct := safety
    total_slippage_pct := total_slip
    min_out_usd := min_out_usd
    min_out_mist := max 0 min_out_mist
    alpha := p.alpha
    beta := p.beta
    exceeds_max_impact := exceeds }

/-- Helper: closed form for `min_out_usd` — the code applies no clamp to it. -/
lemma min_out_usd_eq (symbol : String) (order : ℝ) (dv : Option ℝ)
    (p : Option ImpactParams) (price : ℝ) :
    (estimate_market_impact symbol order dv p price).min_out_usd =
      order * (1 - (estimate_market_impact symbol order dv p price).total_slippage_pct) := by
  cases dv <;> norm_num [estimate_market_impact]

/-- Helper: the total slippage percentage is non-negative whenever the order
is and the effective `alpha` and `safety_margin_bps` are. -/
lemma total_slippage_nonneg (symbol : String) (order : ℝ) (dv : Option ℝ)
    (p : Option ImpactParams) (price : ℝ) (horder : 0 ≤ order)
    (ha : 0 ≤ (effParams symbol p).alpha)
    (hb : 0 ≤ (effParams symbol p).safety_margin_bps) :
    0 ≤ (estimate_market_impact symbol order dv p price).total_slippage_pct := by
  have hbps : (0:ℝ) ≤ ((effParams symbol p).safety_margin_bps : ℝ) / 10000 := by
    have : (0:ℝ) ≤ ((effParams symbol p).safety_margin_bps : ℝ) := by exact_mod_cast hb
    positivity
  cases dv <;> simp only [estimate_market_impact] <;> split_ifs with h1 h2 <;>
    first
      | (have hpow : (0:ℝ) ≤ (order / _) ^ (effParams symbol p).beta :=
            Real.rpow_nonneg (div_nonneg horder (le_of_lt (by assumption))) _
         nlinarith [mul_nonneg ha hpow])
      | (have hpow : (0:ℝ) ≤ (1.0 : ℝ) ^ (effParams symbol p).beta :=
            Real.rpow_nonneg (by norm_num) _
         nlinarith [mul_nonneg ha hpow])

/-- C3, counterexample: with a huge order (100× the daily volume) and impact
exponent 1, the total slippage exceeds 100% and `min_out_usd` comes out
negative — the code clamps only `min_out_mist`, never `min_out_usd`. -/
theorem c3_min_out_counterexample :
    (estimate_market_impact "X" 100 (some 1)
        (some { alpha := 0.1, beta := 1, safety_margin_bps := 50,
                max_impact_pct := 0.05 }) 1).min_out_usd < 0 := by
  norm_num [estimate_market_impact, effParams, Real.rpow_one]

/-- C3 (amended): for any non-negative `order_size_usd`, positive supplied
daily volume, and effective impact parameters with non-negative `alpha` and
`safety_margin_bps`, the slippage estimate satisfies
`min_out_usd = order_size_usd * (1 - total_slippage_pct)` with no clamping
(so `min_out_usd ≤ order_size_usd` always holds, but `min_out_usd` can be
negative when the total slippage exceeds 100%); only the base-unit value
`min_out_mist` is clamped to be at least 0. -/
theorem c3_min_out_amended (symbol : String) (order v : ℝ)
    (p : Option ImpactParams) (price : ℝ) (horder : 0 ≤ order) (hv : 0 < v)
    (ha : 0 ≤ (effParams symbol p).alpha)
    (hb : 0 ≤ (effParams symbol p).safety_margin_bps) :
    (estimate_market_impact symbol order (some v) p price).min_out_usd =
      order * (1 - (estimate_market_impact symbol order (some v) p price).total_slippage_pct)
    ∧ (estimate_market_impact symbol order (some v) p price).min_out_usd ≤ order
    ∧ 0 ≤ (estimate_market_impact symbol order (some v) p price).min_out_mist := by
  refine ⟨min_out_usd_eq symbol order (some v) p price, ?_, ?_⟩
  · rw [min_out_usd_eq symbol order (some v) p price]
    have htot := total_slippage_nonneg symbol order (some v) p price horder ha hb
    nlinarith
  · simp only [estimate_market_impact]
    exact le_max_left 0 _

/-- Witness for `c3_min_out_amended` at the SUI leg of a $50k rebalance. -/
theorem c3_min_out_amended_witness :
    ((0:ℝ) ≤ 50000 ∧ (0:ℝ) < 400000000 ∧
      0 ≤ (effParams "SUI" none).alpha ∧ 0 ≤ (effParams "SUI" none).safety_margin_bps) ∧
    ((estimate_market_impact "SUI" 50000 (some 400000000) none 1).min_out_usd =
      50000 * (1 - (estimate_market_impact "SUI" 50000 (some 400000000) none 1).total_slippage_pct)
    ∧ (estimate_market_impact "SUI" 50000 (some 400000000) none 1).min_out_usd ≤ 50000
    ∧ 0 ≤ (estimate_market_impact "SUI" 50000 (some 400000000) none 1).min_out_mist) :=
  ⟨⟨by norm_num, by norm_num, by simp [effParams, ASSET_IMPACT_PARAMS] <;> norm_num,
      by simp [effParams, ASSET_IMPACT_PARAMS] <;> norm_num⟩,
    c3_min_out_amended "SUI" 50000 400000000 none 1 (by norm_num) (by norm_num)
      (by simp [effParams, ASSET_IMPACT_PARAMS] <;> norm_num)
      (by simp [effParams, ASSET_IMPACT_PARAMS] <;> norm_num)⟩

/-! ## GARCH volatility forecasting — `backend/core/garch.py` -/

/-- `VolatilityForecast` dataclass of `core/garch.py`. -/
structure VolatilityForecast where
  symbol : String
  historical_vol : ℝ
  forecast_vol : ℝ
  omega : ℝ := 0.0
  alpha : ℝ := 0.0
  beta : ℝ := 0.0
  persistence : ℝ := 0.0
  log_likelihood : ℝ := 0.0
  model_used : String := "garch"

/-- Outcome of `arch_model(...).fit(...)` plus the 1-step forecast as read by
`fit_garch`: the fitted `omega`, `alpha[1]`, `beta[1]`, the log-likelihood
and `forecasts.variance.iloc[-1].values[-1]` (in percent²).  The fitter is
the external `arch` library, so the outcome is an input of the model; a
`none` outcome models the `except` branch of `fit_garch`. -/
structure GarchFitOutcome where
  omega : ℝ
  alpha : ℝ
  beta : ℝ
  log_likelihood : ℝ
  forecast_var_pct : ℝ

/-- `np.mean` on a 1-d array. -/
def listMean (l : List ℝ) : ℝ := l.sum / l.length

/-- `np.std(returns, ddof=1)` — sample standard deviation. -/
def sampleStd (l : List ℝ) : ℝ :=
  Real.sqrt ((l.map (fun x => (x - listMean l) ^ 2)).sum / ((l.length : ℝ) - 1))

/-- `_ewma_volatility` of `core/garch.py`: exponentially weighted variance
with decay `2/(span+1)`, weights normalised to sum 1 (the normalisation is
folded into the weighted sum), annualised by `×365` under the square root. -/
def ewmaVolatility (returns : List ℝ) (span : ℕ := 10) : ℝ :=
  let decay : ℝ := 2 / ((span : ℝ) + 1)
  let T := returns.length
  let rawW : List ℝ := (List.range T).map (fun j => (1 - decay) ^ (T - 1 - j))
  let wsum := rawW.sum
  let m := listMean returns
  let ewma_var := ((List.zip rawW returns).map (fun p => p.1 / wsum * (p.2 - m) ^ 2)).sum
  Real.sqrt (ewma_var * 365)

/-- `fit_garch` of `core/garch.py`.  `garchAvailable` models the module-level
`GARCH_AVAILABLE` flag, `fit` the outcome of the external fitter.  The code
falls back to EWMA on exactly three conditions: library unavailable, fewer
than 20 observations, or a fitter exception; a *successful* fit is returned
as `model_used = "garch"` with `persistence = alpha + beta` unchecked. -/
def fit_garch (returns : List ℝ) (symbol : String)
    (garchAvailable : Bool) (fit : Option GarchFitOutcome) : VolatilityForecast :=
  let hist_vol := sampleStd returns * Real.sqrt 365
  if garchAvailable = false ∨ returns.length < 20 then
    { symbol := symbol, historical_vol := hist_vol,
      forecast_vol := ewmaVolatility returns, model_used := "ewma_fallback" }
  else
    match fit with
    | some r =>
        let persistence := r.alpha + r.beta
        let daily_var := r.forecast_var_pct / (100 : ℝ) ^ 2
        let annual_vol := Real.sqrt (daily_var * 365)
        { symbol := symbol, historical_vol := hist_vol, forecast_vol := annual_vol,
          omega := r.omega, alpha := r.alpha, beta := r.beta,
          persistence := persistence, log_likelihood := r.log_likelihood,
          model_used := "garch" }
    | none =>
        { symbol := symbol, historical_vol := hist_vol,
          forecast_vol := ewmaVolatility returns, model_used := "ewma_fallback" }

/-- C4, counterexample: a successful fit with `α = β = 0.6` (persistence
`1.2 ≥ 1`) is returned with `model_used = "garch"` — `fit_garch` never
checks `α + β ≥ 1`, contradicting both the stationarity invariant and the
claimed fourth fallback condition. -/
theorem c4_garch_counterexample :
    (fit_garch (List.replicate 20 (0:ℝ)) "SUI" true
        (some ⟨0.00001, 0.6, 0.6, -10, 4⟩)).model_used = "garch" ∧
    1 ≤ (fit_garch (List.replicate 20 (0:ℝ)) "SUI" true
        (some ⟨0.00001, 0.6, 0.6, -10, 4⟩)).persistence := by
  constructor <;> norm_num [fit_garch]

/-- C4 (amended): `fit_garch` uses the GARCH path exactly when the library is
available, at least 20 observations are supplied, and the fitter succeeds;
in that case it records `persistence = α + β` from the fitted parameters
*without* enforcing `α + β < 1`; in the three fallback cases it records
`model_used = "ewma_fallback"`. -/
theorem c4_garch_amended (returns : List ℝ) (symbol : String)
    (avail : Bool) (fit : Option GarchFitOutcome) :
    ((fit_garch returns symbol avail fit).model_used = "garch" ↔
      (avail = true ∧ 20 ≤ returns.length ∧ fit.isSome = true))
    ∧ (∀ g : GarchFitOutcome, fit = some g → avail = true → 20 ≤ returns.length →
        (fit_garch returns symbol avail fit).persistence = g.alpha + g.beta)
    ∧ ((avail = false ∨ returns.length < 20 ∨ fit = none) →
        (fit_garch returns symbol avail fit).model_used = "ewma_fallback") := by
  have hsplit : ¬(avail = false ∨ returns.length < 20) ↔
      (avail = true ∧ 20 ≤ returns.length) := by
    constructor
    · intro h
      push_neg at h
      exact ⟨by simpa using h.1, by omega⟩
    · rintro ⟨ha, hl⟩ (h | h)
      · simp [ha] at h
      · omega
  refine ⟨?_, ?_, ?_⟩
  · by_cases hc : avail = false ∨ returns.length < 20
    · constructor
      · intro h
        simp only [fit_garch, if_pos hc] at h
        exact absurd h (by decide)
      · rintro ⟨ha, hl, _⟩
        exact absurd hc (hsplit.mpr ⟨ha, hl⟩)
    · rcases fit with _ | g
      · constructor
        · intro h
          simp only [fit_garch, if_neg hc] at h
          exact absurd h (by decide)
        · rintro ⟨_, _, hs⟩
          simp at hs
      · exact ⟨fun _ => ⟨(hsplit.mp hc).1, (hsplit.mp hc).2, rfl⟩,
          fun _ => by simp only [fit_garch, if_neg hc]⟩
  · rintro g rfl ha hl
    simp only [fit_garch, if_neg (hsplit.mpr ⟨ha, hl⟩)]
  · rintro (h | h | h)
    · simp only [fit_garch, if_pos (Or.inl h)]
    · simp only [fit_garch, if_pos (Or.inr h)]
    · subst h
      by_cases hc : avail = false ∨ returns.length < 20
      · simp only [fit_garch, if_pos hc]
      · simp only [fit_garch, if_neg hc]

/-- Witness for `c4_garch_amended`: a successful fit on 25 observations with
`α = 0.05`, `β = 0.9` is recorded as GARCH with persistence `0.95`. -/
theorem c4_garch_amended_witness :
    (fit_garch (List.replicate 25 (0:ℝ)) "BTC" true
        (some ⟨0.00001, 0.05, 0.9, -10, 4⟩)).persistence = 0.95 ∧
    (fit_garch (List.replicate 25 (0:ℝ)) "BTC" true
        (some ⟨0.00001, 0.05, 0.9, -10, 4⟩)).model_used = "garch" := by
  have h := c4_garch_amended (List.replicate 25 (0:ℝ)) "BTC" true
    (some ⟨0.00001, 0.05, 0.9, -10, 4⟩)
  constructor
  · rw [h.2.1 _ rfl rfl (by simp)]
    norm_num
  · exact h.1.mpr ⟨rfl, by simp, rfl⟩

/-! ## Error taxonomy — `backend/core/error_map.py`

The five `_ABORT_PATTERNS` regexes are embedded as executable matchers over
`List Char`, reproducing `re.search` semantics (leftmost match; greedy
`[^)]*`/`[:\s]+`/`\d+`, lazy `.*?` which cannot cross a newline,
case-insensitive literals).  ASCII `\s`/`\d` are used, matching the ASCII
error strings the chain produces. -/

/-- `MoveError` dataclass of `core/error_map.py`. -/
structure MoveError where
  code : ℕ
  constant : String
  moduleName : String
  severity : String
  frontend_message : String
  dev_message : String
  recovery : String

/-- `ERROR_MAP` registry of `core/error_map.py` (messages abbreviated to the
`frontend_message`-relevant fields verbatim; `dev_message`/`recovery` texts
are carried verbatim as well). -/
def ERROR_MAP : ℕ → Option MoveError
  | 0 => some ⟨0, "EInvalidAgent", "portfolio", "critical",
      "Security error: agent not authorized.",
      "AgentCap.portfolio_id does not match the target Portfolio object ID.",
      "Verify AGENT_CAP_ID in .env is bound to the correct PORTFOLIO_ID. Re-issue via issue_agent_cap if needed."⟩
  | 1 => some ⟨1, "EAgentFrozen", "portfolio", "critical",
      "Agent frozen: admin has blocked this agent.",
      "Agent address is in the frozen_agents vector. Admin must call unfreeze_agent.",
      "Ask Korbinian to run: sui client call --function unfreeze_agent --args <admin_cap> <portfolio> <agent_addr>"⟩
  | 2 => some ⟨2, "ECooldownActive", "portfolio", "warning",
      "Quantum cooldown: please wait 60 seconds.",
      "Last trade was less than cooldown_ms ago. Current default: 60s.",
      "Wait for the cooldown to expire, or ask admin to lower cooldown via update_limits."⟩
  | 3 => some ⟨3, "EVolumeExceeded", "portfolio", "error",
      "Risk limit exceeded: daily volume exhausted.",
      "total_traded_today + amount > daily_volume_limit. Default: 50 SUI/day.",
      "Wait for the 24h rolling window to reset, or ask admin to raise daily_volume_limit."⟩
  | 4 => some ⟨4, "EDrawdownExceeded", "portfolio", "error",
      "Drawdown protection: trade would exceed maximum loss.",
      "Projected balance after trade would exceed max_drawdown_bps from peak. Default: 10%.",
      "Reduce trade amount, or ask admin to raise max_drawdown_bps."⟩
  | 5 => some ⟨5, "EInsufficientBalance", "portfolio", "error",
      "Insufficient portfolio balance.",
      "Portfolio balance < requested trade amount.",
      "Deposit more SUI via admin deposit, or reduce trade amount."⟩
  | 6 => some ⟨6, "EPaused", "portfolio", "critical",
      "Portfolio paused: all trades are blocked.",
      "Portfolio.paused == true. Admin activated the kill switch.",
      "Ask Korbinian to resume: POST /api/pause \x7b \"paused\": false \x7d"⟩
  | 7 => some ⟨7, "ESlippageExceeded", "portfolio", "warning",
      "Slippage too high: minimum output not reached.",
      "output_amount < min_output. The DEX (or mock) returned less than expected.",
      "Increase slippage tolerance (lower min_output) or wait for better market conditions."⟩
  | 8 => some ⟨8, "EAtomicRebalanceFailed", "portfolio", "error",
      "Atomic rebalance failed: total value check failed.",
      "Post-rebalance portfolio value check failed. The combined swaps would violate safety bounds.",
      "Reduce swap amounts or split into smaller rebalances."⟩
  | 9 => some ⟨9, "ESwapCountMismatch", "portfolio", "error",
      "Invalid swap configuration: lengths do not match.",
      "swap_amounts.length != swap_min_outputs.length. Arrays must match.",
      "Ensure swap_amounts and swap_min_outputs arrays have the same length."⟩
  | 10 => some ⟨10, "EPostRebalanceDrawdown", "portfolio", "critical",
      "Security limit: portfolio value after rebalance too low.",
      "Post-rebalance drawdown exceeds max_drawdown_bps from peak. Entire PTB is reverted.",
      "Reduce total swap amounts. The combined effect exceeds the drawdown limit."⟩
  | 11 => some ⟨11, "EProtocolNotWhitelisted", "portfolio", "critical",
      "Protocol not whitelisted: target address not in whitelist.",
      "Target protocol address is not in the portfolio's protocol_whitelist vector.",
      "Ask admin to add the protocol via add_to_whitelist, or use a whitelisted protocol."⟩
  | 100 => some ⟨100, "ESlippageTooHigh", "oracle", "error",
      "Oracle slippage: price deviation too high (>1%).",
      "Oracle price vs expected price deviation exceeds max_slippage_bps. Default: 100 bps (1%).",
      "Wait for price to stabilize or increase max_slippage_bps via update_oracle_config."⟩
  | 101 => some ⟨101, "EPriceStale", "oracle", "error",
      "Oracle price stale: price feed too old.",
      "Oracle price timestamp is older than max_staleness_ms. Default: 30s.",
      "Refresh the Pyth price feed before calling the swap, or increase max_staleness_ms."⟩
  | 102 => some ⟨102, "EPriceNegative", "oracle", "critical",
      "Invalid oracle price: price is zero or negative.",
      "oracle_price_x8 or expected_price_x8 is zero. Check Pyth feed health.",
      "Verify the Pyth price feed is returning valid data."⟩
  | 103 => some ⟨103, "EInvalidOracleConfig", "oracle", "error",
      "Invalid oracle configuration.",
      "OracleConfig parameter out of range (max_slippage_bps > 1000 or max_staleness_ms < 1000).",
      "Use valid config: slippage ≤ 1000 bps (10%), staleness ≥ 1000ms."⟩
  | _ => none

/-- Python `\s` for the ASCII range: space, tab, newline, carriage return,
vertical tab, form feed. -/
def isPySpace (c : Char) : Bool :=
  c = ' ' || c = '\t' || c = '\n' || c = '\r' || c = '\x0b' || c = '\x0c'

/-- Case-insensitive character comparison, used for `re.IGNORECASE`. -/
def charsEqCI (a b : Char) : Bool := a.toLower = b.toLower

/-- Case-insensitive literal match at the head, returning the remainder. -/
def stripLiteralCI : List Char → List Char → Option (List Char)
  | [], l => some l
  | _ :: _, [] => none
  | p :: ps, c :: cs => if charsEqCI p c then stripLiteralCI ps cs else none

/-- Value of a decimal digit character. -/
def digitVal (c : Char) : ℕ := c.toNat - '0'.toNat

/-- Maximal digit run at the head (`\d+` greedy), with the remainder. -/
def takeDigits : List Char → List Char × List Char
  | [] => ([], [])
  | c :: cs =>
      if c.isDigit then
        let p := takeDigits cs
        (c :: p.1, p.2)
      else ([], c :: cs)

/-- `int(...)` on the captured digit run. -/
def digitsToNat (ds : List Char) : ℕ := ds.foldl (fun a c => 10 * a + digitVal c) 0

/-- The segment strictly before the first `')'`, if any (`[^)]*` cannot cross
a `')'`, so the closing paren of pattern 1 is the first one). -/
def takeUntilParen : List Char → Option (List Char)
  | [] => none
  | c :: cs => if c = ')' then some [] else (takeUntilParen cs).map (c :: ·)

/-- `MoveAbort\([^)]*,\s*(\d+)\)` matched at this position: after the
case-insensitive literal, the segment up to the first `')'` must end in a
comma, then whitespace, then the captured digits (checked on the reversed
segment, which resolves the greedy backtracking uniquely). -/
def matchMoveAbortAt (l : List Char) : Option ℕ :=
  match stripLiteralCI "moveabort(".toList l with
  | none => none
  | some rest =>
      match takeUntilParen rest with
      | none => none
      | some seg =>
          let r := seg.reverse
          let p := takeDigits r
          if p.1.isEmpty then none
          else
            match p.2.dropWhile isPySpace with
            | ',' :: _ => some (digitsToNat p.1.reverse)
            | _ => none

/-- `abort[_ ]code[:\s]+(\d+)` matched at this position. -/
def matchAbortCodeAt (l : List Char) : Option ℕ :=
  match stripLiteralCI "abort".toList l with
  | none => none
  | some r1 =>
      match r1 with
      | [] => none
      | c :: r2 =>
          if c = '_' || c = ' ' then
            match stripLiteralCI "code".toList r2 with
            | none => none
            | some r3 =>
                let sep := r3.takeWhile fun d => d = ':' || isPySpace d
                let r4 := r3.dropWhile fun d => d = ':' || isPySpace d
                if sep.isEmpty then none
                else
                  let p := takeDigits r4
                  if p.1.isEmpty then none else some (digitsToNat p.1)
          else none

/-- `Move abort (\d+)` matched at this position. -/
def matchMoveAbortSpaceAt (l : List Char) : Option ℕ :=
  match stripLiteralCI "move abort ".toList l with
  | none => none
  | some r =>
      let p := takeDigits r
      if p.1.isEmpty then none else some (digitsToNat p.1)

/-- `.*?(\d+)` after a literal: first digit run reachable without crossing a
newline (`.` does not match `\n`), captured greedily. -/
def scanDigitsNoNewline : List Char → Option ℕ
  | [] => none
  | c :: cs =>
      if c.isDigit then some (digitsToNat (takeDigits (c :: cs)).1)
      else if c = '\n' then none
      else scanDigitsNoNewline cs

/-- `status_code.*?(\d+)` matched at this position. -/
def matchStatusCodeAt (l : List Char) : Option ℕ :=
  match stripLiteralCI "status_code".toList l with
  | none => none
  | some r => scanDigitsNoNewline r

/-- `VMError.*?(\d+)` matched at this position. -/
def matchVMErrorAt (l : List Char) : Option ℕ :=
  match stripLiteralCI "vmerror".toList l with
  | none => none
  | some r => scanDigitsNoNewline r

/-- `pat.search`: try the at-position matcher at every start position from
the left; the first position that matches wins. -/
def searchPat (matchAt : List Char → Option ℕ) : List Char → Option ℕ
  | [] => matchAt []
  | l@(_ :: rest) =>
      match matchAt l with
      | some n => some n
      | none => searchPat matchAt rest

/-- The `for pat in _ABORT_PATTERNS` loop of `parse_abort_error`: the five
patterns are tried in their list order, first match wins. -/
def abortPatternsSearch (l : List Char) : Option ℕ :=
  match searchPat matchMoveAbortAt l with
  | some n => some n
  | none =>
    match searchPat matchAbortCodeAt l with
    | some n => some n
    | none =>
      match searchPat matchMoveAbortSpaceAt l with
      | some n => some n
      | none =>
        match searchPat matchStatusCodeAt l with
        | some n => some n
        | none => searchPat matchVMErrorAt l

/-- `ParsedError` dataclass of `core/error_map.py`. -/
structure ParsedError where
  is_move_abort : Bool
  code : Option ℕ
  mapped : Option MoveError
  frontend_message : String
  raw_error : String

/-- `parse_abort_error` of `core/error_map.py`, on the already-stringified
error (`raw = str(error)`). -/
def parse_abort_error (raw : String) : ParsedError :=
  match abortPatternsSearch raw.toList with
  | some code =>
      let mapped := ERROR_MAP code
      { is_move_abort := true
        code := some code
        mapped := mapped
        frontend_message :=
          match mapped with
          | some m => m.frontend_message
          | none => " Unknown error (code " ++ toString code ++ ")"
        raw_error := raw }
  | none =>
      { is_move_abort := false
        code := none
        mapped := none
        frontend_message := "Unexpected error: " ++ String.mk (raw.toList.take 200)
        raw_error := raw }

/-- C10: `parse_abort_error` is a total function of the error string; the
five abort patterns are tried in their fixed order with the first match
winning; a matched code outside the registry yields `is_move_abort = true`,
`mapped = none` and the `" Unknown error (code N)"` message; and with no
match the result has `is_move_abort = false`, `code = none` and a message
embedding the raw text truncated to at most 200 characters. -/
theorem c10_parse_abort_error (raw : String) :
    (∀ c, searchPat matchMoveAbortAt raw.toList = some c →
      (parse_abort_error raw).code = some c)
    ∧ (∀ c, searchPat matchMoveAbortAt raw.toList = none →
        searchPat matchAbortCodeAt raw.toList = some c →
        (parse_abort_error raw).code = some c)
    ∧ (∀ c, searchPat matchMoveAbortAt raw.toList = none →
        searchPat matchAbortCodeAt raw.toList = none →
        searchPat matchMoveAbortSpaceAt raw.toList = some c →
        (parse_abort_error raw).code = some c)
    ∧ (∀ c, searchPat matchMoveAbortAt raw.toList = none →
        searchPat matchAbortCodeAt raw.toList = none →
        searchPat matchMoveAbortSpaceAt raw.toList = none →
        searchPat matchStatusCodeAt raw.toList = some c →
        (parse_abort_error raw).code = some c)
    ∧ (∀ c, searchPat matchMoveAbortAt raw.toList = none →
        searchPat matchAbortCodeAt raw.toList = none →
        searchPat matchMoveAbortSpaceAt raw.toList = none →
        searchPat matchStatusCodeAt raw.toList = none →
        searchPat matchVMErrorAt raw.toList = some c →
        (parse_abort_error raw).code = some c)
    ∧ (∀ c, (parse_abort_error raw).code = some c →
        (parse_abort_error raw).is_move_abort = true ∧
        (ERROR_MAP c = none →
          (parse_abort_error raw).mapped = none ∧
          (parse_abort_error raw).frontend_message =
            " Unknown error (code " ++ toString c ++ ")"))
    ∧ (abortPatternsSearch raw.toList = none →
        (parse_abort_error raw).is_move_abort = false ∧
        (parse_abort_error raw).code = none ∧
        (parse_abort_error raw).frontend_message =
          "Unexpected error: " ++ String.mk (raw.toList.take 200) ∧
        (raw.toList.take 200).length ≤ 200) := by
  refine ⟨?_, ?_, ?_, ?_, ?_, ?_, ?_⟩
  · intro c h
    simp only [parse_abort_error, abortPatternsSearch, h]
  · intro c h1 h2
    simp only [parse_abort_error, abortPatternsSearch, h1, h2]
  · intro c h1 h2 h3
    simp only [parse_abort_error, abortPatternsSearch, h1, h2, h3]
  · intro c h1 h2 h3 h4
    simp only [parse_abort_error, abortPatternsSearch, h1, h2, h3, h4]
  · intro c h1 h2 h3 h4 h5
    simp only [parse_abort_error, abortPatternsSearch, h1, h2, h3, h4, h5]
  · intro c h
    rcases hs : abortPatternsSearch raw.toList with _ | c'
    · simp only [parse_abort_error, hs] at h
      exact absurd h (by simp)
    · simp only [parse_abort_error, hs] at h ⊢
      obtain rfl : c' = c := by simpa using h
      refine ⟨trivial, fun hmap => ?_⟩
      simp only [hmap]
      exact ⟨trivial, trivial⟩
  · intro h
    simp only [parse_abort_error, h]
    refine ⟨trivial, trivial, trivial, ?_⟩
    exact le_trans (List.length_take_le 200 raw.toList) (le_refl 200)

/-- Witness for `c10_parse_abort_error`: `"MoveAbort(vault, 42)"` parses to
the unmapped code 42 with the unknown-code message, and a plain string
parses to no abort at all. -/
theorem c10_parse_abort_error_witness :
    (searchPat matchMoveAbortAt "MoveAbort(vault, 42)".toList = some 42 ∧
      (parse_abort_error "MoveAbort(vault, 42)").code = some 42 ∧
      (parse_abort_error "MoveAbort(vault, 42)").mapped = none ∧
      (parse_abort_error "MoveAbort(vault, 42)").frontend_message =
        " Unknown error (code 42)") ∧
    (abortPatternsSearch "transport closed".toList = none ∧
      (parse_abort_error "transport closed").is_move_abort = false ∧
      (parse_abort_error "transport closed").frontend_message =
        "Unexpected error: transport closed") := by
  have h := c10_parse_abort_error "MoveAbort(vault, 42)"
  have h2 := c10_parse_abort_error "transport closed"
  have hm : searchPat matchMoveAbortAt "MoveAbort(vault, 42)".toList = some 42 := by decide
  have hn : abortPatternsSearch "transport closed".toList = none := by decide
  have hcode := h.1 42 hm
  have hrest := (h.2.2.2.2.2.1) 42 hcode
  have hfin := h2.2.2.2.2.2.2 hn
  refine ⟨⟨hm, hcode, (hrest.2 (by decide)).1, (hrest.2 (by decide)).2⟩,
    ⟨hn, hfin.1, ?_⟩⟩
  rw [hfin.2.2.1]
  decide

/-! ## Relayer event dedup — `backend/blockchain/relayer.py`

`Relayer._poll_event_type` is modelled as a pure transition on the relayer
state.  The RPC response (event list and `nextCursor`) is an input.  Python
sets have no specified iteration order, so `list(self.processed)` in the
trim step is modelled by an explicit `reorder` function; an honest run
satisfies `∀ l, (reorder l).Perm l`. -/

/-- An event record as returned by `suix_queryEvents`: only the id fields
that `_poll_event_type` reads for dedup. -/
structure SuiEvent where
  txDigest : String
  eventSeq : String

/-- The dedup key `f"{txDigest}:{eventSeq}"` of `_poll_event_type`. -/
def dedupKey (e : SuiEvent) : String := e.txDigest ++ ":" ++ e.eventSeq

/-- Relayer state: per-event-type cursors, the in-memory seen-set
`self.processed` (kept in insertion order here; the Python set's iteration
order is supplied separately), and the accounting of every dedup key handed
to a handler, in dispatch order. -/
structure RelayerState where
  cursors : String → Option String
  processed : List String
  dispatchLog : List String

/-- The `for event in events` loop of `_poll_event_type`: skip keys already
in the seen-set, otherwise add the key and (when a handler is registered
for the event type) dispatch.  Returns (new seen-set, new dispatch log). -/
def processEvents (hasHandler : Bool) :
    List SuiEvent → List String → List String → List String × List String
  | [], seen, log => (seen, log)
  | e :: rest, seen, log =>
      let k := dedupKey e
      if k ∈ seen then processEvents hasHandler rest seen log
      else processEvents hasHandler rest (seen ++ [k])
        (if hasHandler then log ++ [k] else log)

/-- `_poll_event_type` on one RPC response: run the event loop, advance the
cursor when `nextCursor` is truthy, then trim the seen-set to 5,000 of its
entries (in the set's iteration order `reorder`) whenever it exceeds
10,000. -/
def pollEventType (reorder : List String → List String) (hasHandler : Bool)
    (st : RelayerState) (et : String) (events : List SuiEvent)
    (nextCursor : Option String) : RelayerState :=
  { cursors :=
      match nextCursor with
      | some c => fun e => if e = et then some c else st.cursors e
      | none => st.cursors
    processed :=
      if 10000 < (processEvents hasHandler events st.processed st.dispatchLog).1.length then
        (reorder (processEvents hasHandler events st.processed st.dispatchLog).1).drop
          ((reorder (processEvents hasHandler events st.processed st.dispatchLog).1).length - 5000)
      else (processEvents hasHandler events st.processed st.dispatchLog).1
    dispatchLog := (processEvents hasHandler events st.processed st.dispatchLog).2 }

/-- One poll-cycle input per event type: the RPC response contents. -/
structure PollInput where
  eventType : String
  events : List SuiEvent
  nextCursor : Option String

/-- A run of the relayer within one process lifetime: fold
`_poll_event_type` over the successive RPC responses.  `handled` is the key
set of `self.event_handlers`. -/
def runPolls (reorder : List String → List String) (handled : List String) :
    RelayerState → List PollInput → RelayerState
  | st, [] => st
  | st, i :: rest =>
      runPolls reorder handled
        (pollEventType reorder (i.eventType ∈ handled) st i.eventType i.events
          i.nextCursor) rest

/-- The relayer's initial in-memory state (empty seen-set and log). -/
def initRelayerState : RelayerState := ⟨fun _ => none, [], []⟩

/-- Helper: processing a batch of pairwise-distinct, all-new events appends
all their keys to the seen-set and (with a handler) to the dispatch log. -/
lemma processEvents_all_new (h : Bool) :
    ∀ (events : List SuiEvent) (seen log : List String),
      (∀ e ∈ events, dedupKey e ∉ seen) → (events.map dedupKey).Nodup →
      processEvents h events seen log =
        (seen ++ events.map dedupKey, log ++ (if h then events.map dedupKey else [])) := by
  intro events
  induction events with
  | nil => intro seen log _ _; simp [processEvents]
  | cons e rest ih =>
    intro seen log hnew hnd
    have hke : dedupKey e ∉ seen := hnew e (List.mem_cons_self e rest)
    rw [processEvents, if_neg hke]
    rw [ih (seen ++ [dedupKey e]) _ ?_ ?_]
    · have hlog : (if h then log ++ [dedupKey e] else log) ++
          (if h then rest.map dedupKey else []) =
          log ++ (if h then (e :: rest).map dedupKey else []) := by
        cases h <;> simp
      rw [hlog]
      simp
    · intro e' he'
      have hnd' := hnd
      rw [List.map_cons, List.nodup_cons] at hnd'
      simp only [List.mem_append, List.mem_singleton]
      rintro (hmem | heq)
      · exact hnew e' (List.mem_cons_of_mem e he') hmem
      · exact hnd'.1 (heq ▸ List.mem_map_of_mem dedupKey he')
    · have hnd' := hnd
      rw [List.map_cons, List.nodup_cons] at hnd'
      exact hnd'.2

/-- Helper: the invariant carried by the event loop — the seen-set and the
dispatch log stay duplicate-free, dispatched keys stay in the seen-set, and
the seen-set grows by at most one entry per event. -/
lemma processEvents_invariant (h : Bool) :
    ∀ (events : List SuiEvent) (seen log : List String),
      seen.Nodup → log.Nodup → (∀ k ∈ log, k ∈ seen) →
      (processEvents h events seen log).1.Nodup ∧
      (processEvents h events seen log).2.Nodup ∧
      (∀ k ∈ (processEvents h events seen log).2, k ∈ (processEvents h events seen log).1) ∧
      (processEvents h events seen log).1.length ≤ seen.length + events.length := by
  intro events
  induction events with
  | nil => intro seen log h1 h2 h3; exact ⟨h1, h2, h3, by simp [processEvents]⟩
  | cons e rest ih =>
    intro seen log h1 h2 h3
    by_cases hk : dedupKey e ∈ seen
    · rw [processEvents, if_pos hk]
      obtain ⟨a, b, c, d⟩ := ih seen log h1 h2 h3
      exact ⟨a, b, c, by simpa using Nat.le_succ_of_le d⟩
    · rw [processEvents, if_neg hk]
      have hseen' : (seen ++ [dedupKey e]).Nodup := by
        simp [List.nodup_append, h1, hk]
      have hnotin : dedupKey e ∉ log := fun hm => hk (h3 _ hm)
      have hlog' : (if h then log ++ [dedupKey e] else log).Nodup := by
        by_cases hh : h = true
        · rw [if_pos hh]
          simp [List.nodup_append, h2, hnotin]
        · rw [if_neg hh]
          exact h2
      have hsub' : ∀ k ∈ (if h then log ++ [dedupKey e] else log), k ∈ seen ++ [dedupKey e] := by
        intro k hkmem
        by_cases hh : h = true
        · rw [if_pos hh] at hkmem
          rcases List.mem_append.mp hkmem with hm | hm
          · exact List.mem_append_left _ (h3 k hm)
          · exact List.mem_append_right _ hm
        · rw [if_neg hh] at hkmem
          exact List.mem_append_left _ (h3 k hkmem)
      obtain ⟨a, b, c, d⟩ := ih (seen ++ [dedupKey e]) _ hseen' hlog' hsub'
      refine ⟨a, b, c, ?_⟩
      calc (processEvents h rest (seen ++ [dedupKey e])
              (if h then log ++ [dedupKey e] else log)).1.length
          ≤ (seen ++ [dedupKey e]).length + rest.length := d
        _ = seen.length + (e :: rest).length := by simp [Nat.add_comm, Nat.add_assoc]; omega

/-- Helper: a poll whose seen-set stays within 10,000 entries does not trim
and preserves the invariant. -/
lemma pollEventType_no_trim (reorder : List String → List String) (h : Bool)
    (st : RelayerState) (et : String) (events : List SuiEvent) (nc : Option String)
    (h1 : st.processed.Nodup) (h2 : st.dispatchLog.Nodup)
    (h3 : ∀ k ∈ st.dispatchLog, k ∈ st.processed)
    (hsmall : st.processed.length + events.length ≤ 10000) :
    (pollEventType reorder h st et events nc).processed.Nodup ∧
    (pollEventType reorder h st et events nc).dispatchLog.Nodup ∧
    (∀ k ∈ (pollEventType reorder h st et events nc).dispatchLog,
      k ∈ (pollEventType reorder h st et events nc).processed) ∧
    (pollEventType reorder h st et events nc).processed.length ≤
      st.processed.length + events.length := by
  obtain ⟨a, b, c, d⟩ := processEvents_invariant h events st.processed st.dispatchLog h1 h2 h3
  have hno : ¬ 10000 < (processEvents h events st.processed st.dispatchLog).1.length := by
    omega
  simp only [pollEventType, if_neg hno]
  exact ⟨a, b, c, d⟩

/-- Helper: within a total budget of 10,000 delivered events the trim never
fires and the dispatch log stays duplicate-free. -/
lemma runPolls_nodup (reorder : List String → List String) (handled : List String) :
    ∀ (trace : List PollInput) (st : RelayerState),
      st.processed.Nodup → st.dispatchLog.Nodup →
      (∀ k ∈ st.dispatchLog, k ∈ st.processed) →
      st.processed.length + (trace.map (fun i => i.events.length)).sum ≤ 10000 →
      (runPolls reorder handled st trace).dispatchLog.Nodup := by
  intro trace
  induction trace with
  | nil => intro st _ h2 _ _; exact h2
  | cons i rest ih =>
    intro st h1 h2 h3 hbudget
    simp only [List.map_cons, List.sum_cons] at hbudget
    obtain ⟨a, b, c, d⟩ := pollEventType_no_trim reorder (i.eventType ∈ handled) st
      i.eventType i.events i.nextCursor h1 h2 h3 (by omega)
    exact ih _ a b c (by omega)

/-- C8 (amended): within one process lifetime (a) whenever the seen-set
exceeds 10,000 entries after a poll's event loop it is trimmed to exactly
5,000 entries — but these are 5,000 entries in the *set iteration order*
(any permutation), not necessarily the most recently added — and (b) as
long as no trim fires (in particular whenever at most 10,000 events are
delivered in total), no dedup key is ever dispatched to a handler twice. -/
theorem c8_dedup_amended :
    (∀ (reorder : List String → List String), (∀ l, (reorder l).Perm l) →
      ∀ (h : Bool) (st : RelayerState) (et : String) (events : List SuiEvent)
        (nc : Option String),
        10000 < (processEvents h events st.processed st.dispatchLog).1.length →
        (pollEventType reorder h st et events nc).processed.length = 5000) ∧
    (∀ (reorder : List String → List String) (handled : List String)
        (trace : List PollInput),
      (trace.map (fun i => i.events.length)).sum ≤ 10000 →
      (runPolls reorder handled initRelayerState trace).dispatchLog.Nodup) := by
  constructor
  · intro reorder hperm h st et events nc hbig
    have hlen : (reorder (processEvents h events st.processed st.dispatchLog).1).length =
        (processEvents h events st.processed st.dispatchLog).1.length :=
      (hperm _).length_eq
    simp only [pollEventType, if_pos hbig, List.length_drop, hlen]
    omega
  · intro reorder handled trace hbudget
    exact runPolls_nodup reorder handled trace initRelayerState (by simp [initRelayerState])
      (by simp [initRelayerState]) (by simp [initRelayerState])
      (by simpa [initRelayerState] using hbudget)

/-- The event that gets redelivered across polls in the C8 counterexample
(`tx_digest = ""`, `event_seq = ""`, dedup key `":"`). -/
def cexEvent : SuiEvent := ⟨"", ""⟩

/-- Filler dedup key `i`: `i+1` copies of `'a'` followed by `":"`. -/
def cexFKey (i : ℕ) : String := dedupKey ⟨String.mk (List.replicate (i + 1) 'a'), ""⟩

/-- 10,000 filler events with pairwise distinct dedup keys, enough to push
the seen-set over the 10,000-entry trim threshold. -/
def cexFillers : List SuiEvent :=
  (List.range 10000).map fun i => ⟨String.mk (List.replicate (i + 1) 'a'), ""⟩

lemma cexKey_colon : dedupKey cexEvent = ":" := rfl

lemma cexFKey_len (i : ℕ) : (cexFKey i).length = i + 2 := by
  have hc : (":" : String).length = 1 := rfl
  simp [cexFKey, dedupKey, String.length_append, String.length_mk, hc]

lemma cexFKey_inj : Function.Injective cexFKey := by
  intro i j h
  have := congrArg String.length h
  rw [cexFKey_len, cexFKey_len] at this
  omega

lemma cexFillers_map : cexFillers.map dedupKey = (List.range 10000).map cexFKey := by
  simp only [cexFillers, List.map_map]
  rfl

lemma cexFKeys_nodup : ((List.range 10000).map cexFKey).Nodup :=
  List.Nodup.map cexFKey_inj (List.nodup_range 10000)

lemma colon_notin_fkeys : ":" ∉ (List.range 10000).map cexFKey := by
  intro hmem
  obtain ⟨i, _, hi⟩ := List.mem_map.mp hmem
  have := congrArg String.length hi
  have hc : (":" : String).length = 1 := rfl
  rw [cexFKey_len, hc] at this
  omega

/-- Helper: the first counterexample poll adds 10,001 fresh keys and
dispatches all of them. -/
lemma cex_processEvents_eq :
    processEvents true (cexEvent :: cexFillers) [] [] =
      (":" :: (List.range 10000).map cexFKey, ":" :: (List.range 10000).map cexFKey) := by
  have hkeys : (cexEvent :: cexFillers).map dedupKey =
      ":" :: (List.range 10000).map cexFKey := by
    rw [List.map_cons, cexFillers_map, cexKey_colon]
  have hnd : ((cexEvent :: cexFillers).map dedupKey).Nodup := by
    rw [hkeys, List.nodup_cons]
    exact ⟨colon_notin_fkeys, cexFKeys_nodup⟩
  rw [processEvents_all_new true _ [] [] (fun e _ he => (List.not_mem_nil _ he)) hnd]
  rw [hkeys]
  rfl

/-- Helper: first projection of `cex_processEvents_eq`. -/
lemma cex_fst : (processEvents true (cexEvent :: cexFillers) [] []).1 =
    ":" :: (List.range 10000).map cexFKey := by
  rw [cex_processEvents_eq]

/-- Helper: second projection of `cex_processEvents_eq`. -/
lemma cex_snd : (processEvents true (cexEvent :: cexFillers) [] []).2 =
    ":" :: (List.range 10000).map cexFKey := by
  rw [cex_processEvents_eq]

/-- Helper: the seen-set after the first counterexample poll exceeds the
trim threshold. -/
lemma cex_big :
    10000 < (processEvents true (cexEvent :: cexFillers) initRelayerState.processed
      initRelayerState.dispatchLog).1.length := by
  have h0 : initRelayerState.processed = [] := rfl
  have h1 : initRelayerState.dispatchLog = [] := rfl
  rw [h0, h1, cex_processEvents_eq]
  simp only [List.length_cons, List.length_map, List.length_range]
  omega

/-- Helper: the state after the first counterexample poll — the key `":"`
has been trimmed out of the seen-set even though the set now records only
the 5,000 *most recently added* keys (set iteration order = insertion
order here), while the dispatch log shows `":"` dispatched once. -/
lemma cex_poll1_eq :
    pollEventType id true initRelayerState "T" (cexEvent :: cexFillers) none =
      ⟨initRelayerState.cursors, ((List.range 10000).map cexFKey).drop 5000,
        ":" :: (List.range 10000).map cexFKey⟩ := by
  have h0 : initRelayerState.processed = [] := rfl
  have h1 : initRelayerState.dispatchLog = [] := rfl
  have hlen : (":" :: (List.range 10000).map cexFKey).length = 10001 := by
    simp only [List.length_cons, List.length_map, List.length_range]
  unfold pollEventType
  rw [h0, h1, cex_fst, cex_snd, id_eq, hlen]
  rw [if_pos (by omega)]
  have h5001 : (10001 - 5000 : ℕ) = 5000 + 1 := by norm_num
  rw [h5001, List.drop_succ_cons]

/-- Helper: `":"` is not among the 5,000 keys kept by the trim. -/
lemma colon_notin_kept : ":" ∉ ((List.range 10000).map cexFKey).drop 5000 := by
  intro h
  exact colon_notin_fkeys (List.drop_subset 5000 _ h)

/-- C8, counterexample: a trace of two polls on one event type within a
single process lifetime in which the event `("", "")` is dispatched to the
handler twice — the first poll pushes the seen-set over 10,000 entries so
the trim evicts the event's key, and the second poll redelivers the event
(`nextCursor` was null, so the cursor never advanced).  This refutes both
halves of the claim at once: dispatch-at-most-once fails after a trim even
when the kept 5,000 entries are exactly the most recently added ones. -/
theorem c8_dedup_counterexample :
    ((runPolls id ["T"] initRelayerState
      [⟨"T", cexEvent :: cexFillers, none⟩, ⟨"T", [cexEvent], none⟩]).dispatchLog.count ":") = 2 := by
  have hh : (decide (("T" : String) ∈ (["T"] : List String))) = true := by decide
  simp only [runPolls, hh]
  rw [cex_poll1_eq]
  have hstep2 : processEvents true [cexEvent] (((List.range 10000).map cexFKey).drop 5000)
      (":" :: (List.range 10000).map cexFKey) =
      (((List.range 10000).map cexFKey).drop 5000 ++ [":"],
        (":" :: (List.range 10000).map cexFKey) ++ [":"]) := by
    rw [processEvents_all_new true _ _ _ ?_ ?_]
    · rw [List.map_singleton, cexKey_colon]
      rfl
    · intro e he
      rw [List.mem_singleton] at he
      subst he
      rw [cexKey_colon]
      exact colon_notin_kept
    · rw [List.map_singleton, cexKey_colon]
      exact List.nodup_singleton ":"
  have hstep2_fst : (processEvents true [cexEvent]
      (((List.range 10000).map cexFKey).drop 5000)
      (":" :: (List.range 10000).map cexFKey)).1 =
      ((List.range 10000).map cexFKey).drop 5000 ++ [":"] := by rw [hstep2]
  have hstep2_snd : (processEvents true [cexEvent]
      (((List.range 10000).map cexFKey).drop 5000)
      (":" :: (List.range 10000).map cexFKey)).2 =
      (":" :: (List.range 10000).map cexFKey) ++ [":"] := by rw [hstep2]
  have hlen2 : ((((List.range 10000).map cexFKey).drop 5000) ++ [":"]).length = 5001 := by
    simp only [List.length_append, List.length_drop, List.length_map, List.length_range,
      List.length_singleton]
  unfold pollEventType
  rw [hstep2_snd]
  have hcount0 : ((List.range 10000).map cexFKey).count ":" = 0 :=
    List.count_eq_zero.mpr colon_notin_fkeys
  simp only [List.count_append, List.count_cons_self, List.count_singleton, List.count_nil,
    hcount0]

/-- Witness for `c8_dedup_amended`: the trim fires on the 10,001-key poll and
leaves exactly 5,000 entries, and a 1-event trace dispatches without
duplicates. -/
theorem c8_dedup_amended_witness :
    ((pollEventType id true initRelayerState "T" (cexEvent :: cexFillers) none).processed.length
        = 5000) ∧
    ((([⟨"T", [cexEvent], none⟩] : List PollInput).map (fun i => i.events.length)).sum ≤ 10000 ∧
      (runPolls id ["T"] initRelayerState [⟨"T", [cexEvent], none⟩]).dispatchLog.Nodup) :=
  ⟨c8_dedup_amended.1 id (fun l => List.Perm.refl l) true initRelayerState "T"
      (cexEvent :: cexFillers) none cex_big,
    ⟨by norm_num, c8_dedup_amended.2 id ["T"] [⟨"T", [cexEvent], none⟩] (by norm_num)⟩⟩

/-! ## QUBO portfolio optimizer — `backend/quantum/optimizer.py`

Vectors over the `n` assets are functions `Fin n → ℝ`; the covariance is a
`Matrix`.  `np.linalg.inv` raising `LinAlgError` on a singular matrix is
modelled by the `IsUnit det` test; `np.argmax` is the least maximising
index. -/

/-- `Asset` dataclass of `quantum/optimizer.py`. -/
structure Asset where
  symbol : String
  expected_return : ℝ
  current_weight : ℝ := 0.0
  max_weight : ℝ := 0.40

/-- `OptimizationResult` dataclass (weights and allocation keyed by asset
index; the Python dict is keyed by the — distinct — symbols). -/
structure OptimizationResult (n : ℕ) where
  allocation : Fin n → Bool
  energy : ℝ
  weights : Fin n → ℝ
  expected_return : ℝ
  expected_risk : ℝ
  solver_time_s : ℝ
  solver_used : String
  feasible : Bool
  reason : String

/-- `QUBOConfig` dataclass. -/
structure QUBOConfig where
  lambda_return : ℝ := 1.0
  lambda_risk : ℝ := 0.5
  lambda_budget : ℝ := 2.0
  target_assets : ℕ := 3
  num_reads : ℕ := 200
  use_qpu : Bool := false

/-- A built BQM: linear biases, the quadratic coefficient list in the order
the `i < j` double loop emits it, and the offset. -/
structure BQM (n : ℕ) where
  linear : Fin n → ℝ
  quadratic : List ((Fin n × Fin n) × ℝ)
  offset : ℝ

/-- `PortfolioQUBO.build`: the linear vector is assembled by the three `h`
updates, the quadratic dict by the `i < j` loop keeping `|q| > 1e-12`, and
the offset is `0.0` plus `λ_budget·K²`. -/
def buildBQM (n : ℕ) (assets : Fin n → Asset) (cov : Matrix (Fin n) (Fin n) ℝ)
    (cfg : QUBOConfig) : BQM n :=
  { linear := fun i =>
      0 - cfg.lambda_return * (assets i).expected_return
        + cfg.lambda_risk * cov i i
        + cfg.lambda_budget * (1.0 - 2.0 * (cfg.target_assets : ℝ))
    quadratic :=
      (List.finRange n).bind fun i =>
        ((List.finRange n).filter fun j => i < j).filterMap fun j =>
          let q := 0.0 + cfg.lambda_risk * 2.0 * cov i j + 2.0 * cfg.lambda_budget
          if 1e-12 < |q| then some ((i, j), q) else none
    offset := 0.0 + cfg.lambda_budget * (cfg.target_assets : ℝ) * (cfg.target_assets : ℝ) }

/-- The dimod energy of a binary sample on a built BQM:
`Σ hᵢ xᵢ + Σ J_ij xᵢ xⱼ + offset`. -/
def bqmEnergy {n : ℕ} (b : BQM n) (x : Fin n → Bool) : ℝ :=
  (∑ i, if x i then b.linear i else 0)
    + (b.quadratic.map fun p => if x p.1.1 && x p.1.2 then p.2 else 0).sum
    + b.offset

/-- `dimod.ExactSolver` + `response.first`: a sample of minimal energy among
all `2^n` assignments. -/
def exactBest {n : ℕ} (b : BQM n) : Fin n → Bool :=
  Classical.choose (Finset.exists_min_image (Finset.univ : Finset (Fin n → Bool))
    (bqmEnergy b) ⟨fun _ => false, Finset.mem_univ _⟩)

lemma exactBest_le {n : ℕ} (b : BQM n) (x : Fin n → Bool) :
    bqmEnergy b (exactBest b) ≤ bqmEnergy b x := by
  have h := Classical.choose_spec (Finset.exists_min_image
    (Finset.univ : Finset (Fin n → Bool)) (bqmEnergy b) ⟨fun _ => false, Finset.mem_univ _⟩)
  exact h.2 x (Finset.mem_univ x)

/-- Helper: a strict unique minimiser is the exact solver's sample. -/
lemma exactBest_eq_of_strict {n : ℕ} (b : BQM n) (x₀ : Fin n → Bool)
    (h : ∀ x, x ≠ x₀ → bqmEnergy b x₀ < bqmEnergy b x) : exactBest b = x₀ := by
  by_contra hne
  exact absurd (exactBest_le b x₀) (not_le.mpr (h _ hne))

/-- `np.clip(w, 0.0, ub)` componentwise. -/
def clipv {m : ℕ} (ub w : Fin m → ℝ) : Fin m → ℝ := fun i => min (max (w i) 0) (ub i)

/-- One iteration of the `for _ in range(n_iters)` loop of
`_project_simplex_bounded`.  `Sum.inl` is a `break` (with the value `w`
holds after the loop), `Sum.inr` continues with the updated vector. -/
def projStep {m : ℕ} (ub w : Fin m → ℝ) : (Fin m → ℝ) ⊕ (Fin m → ℝ) :=
  let c := clipv ub w
  let excess := (∑ i, c i) - 1.0
  if |excess| < 1e-10 then Sum.inl c
  else
    let free : Fin m → Prop :=
      if 0 < excess then fun i => c i < ub i - 1e-10 else fun i => 1e-10 < c i
    let nf := (Finset.univ.filter free).card
    if nf = 0 then
      if 1e-12 < (∑ i, c i) then Sum.inl (fun i => c i / (∑ i, c i)) else Sum.inl w
    else Sum.inr (fun i => if free i then c i - excess / (nf : ℝ) else c i)

/-- The bounded-fuel iteration of the projection loop. -/
def projLoop {m : ℕ} (ub : Fin m → ℝ) : ℕ → (Fin m → ℝ) → (Fin m → ℝ)
  | 0, w => w
  | fuel + 1, w =>
      match projStep ub w with
      | Sum.inl out => out
      | Sum.inr w' => projLoop ub fuel w'

/-- `PortfolioQUBO._project_simplex_bounded`: pre-normalise (uniform vector
when the mass is ≤ 1e-12), run up to `n_iters` Dykstra-style iterations,
then clip a final time and re-normalise when the sum drifted by more than
1e-8. -/
def projectSimplexBounded {m : ℕ} (w0 ub : Fin m → ℝ) (n_iters : ℕ) : Fin m → ℝ :=
  let w1 : Fin m → ℝ := fun i => max (w0 i) 0
  let w2 : Fin m → ℝ :=
    if 1e-12 < (∑ i, w1 i) then fun i => w1 i / (∑ i, w1 i) else fun _ => (1 : ℝ) / (m : ℝ)
  let w3 := projLoop ub n_iters w2
  let c := clipv ub w3
  if 1e-8 < |(∑ i, c i) - 1.0| ∧ 1e-12 < (∑ i, c i) then fun i => c i / (∑ i, c i) else c

/-- `np.argmax`: the least index attaining the maximum. -/
def argmaxIdx {m : ℕ} (hm : 0 < m) (w : Fin m → ℝ) : Fin m :=
  (Finset.univ.filter fun i => ∀ j, w j ≤ w i).min' (by
    obtain ⟨i, _, hi⟩ := Finset.exists_max_image Finset.univ w
      ⟨⟨0, hm⟩, Finset.mem_univ _⟩
    exact ⟨i, Finset.mem_filter.mpr ⟨Finset.mem_univ _, fun j => hi j (Finset.mem_univ _)⟩⟩)

/-- The `for _ in range(20)` excess-removal loop of
`_optimize_continuous_weights` (floor enforcement path). -/
def reduceLoop {m : ℕ} (hm : 0 < m) : ℕ → (Fin m → ℝ) → ℝ → (Fin m → ℝ)
  | 0, w, _ => w
  | k + 1, w, excess =>
      let i := argmaxIdx hm w
      let red := min excess (w i - 0.05)
      let w' := Function.update w i (w i - red)
      let excess' := excess - red
      if |excess'| < 1e-10 then w' else reduceLoop hm k w' excess'

/-- `PortfolioQUBO._optimize_continuous_weights` on the selected index list.
Returns the full per-index weight vector (zeros outside the selection) and
the metrics `(wᵀμ_S, √(wᵀΣ_S w))`.  The `else` branch is unreachable: the
caller only invokes it with a non-empty selection. -/
def optimizeContinuousWeights {n : ℕ} (assets : Fin n → Asset)
    (cov : Matrix (Fin n) (Fin n) ℝ) (selected : List (Fin n)) :
    (Fin n → ℝ) × ℝ × ℝ :=
  if hm : 0 < selected.length then
    let m := selected.length
    let sel : Fin m → Fin n := fun j => selected.get j
    let sub_mu : Fin m → ℝ := fun j => (assets (sel j)).expected_return
    let sub_cov : Matrix (Fin m) (Fin m) ℝ := Matrix.of fun j k => cov (sel j) (sel k)
    let max_weights : Fin m → ℝ := fun j => (assets (sel j)).max_weight
    let raw_w : Fin m → ℝ :=
      if IsUnit sub_cov.det then
        let r := sub_cov⁻¹.mulVec sub_mu
        if ∀ j, r j ≤ 0 then sub_cov⁻¹.mulVec (fun _ => 1) else r
      else fun _ => 1
    let w1 := projectSimplexBounded raw_w max_weights 50
    let w2 :=
      if 1 < m ∧ (∃ j, w1 j < 0.05) then
        let blended : Fin m → ℝ := fun j => 0.5 * w1 j + 0.5 * ((1 : ℝ) / (m : ℝ))
        let wp := projectSimplexBounded blended max_weights 50
        if ∃ j, wp j < 0.05 then
          let wf : Fin m → ℝ := fun j => max (wp j) 0.05
          let excess := (∑ j, wf j) - 1.0
          let wr := if 0 < excess then reduceLoop hm 20 wf excess else wf
          fun j => wr j / (∑ k, wr k)
        else wp
      else w1
    let exp_ret := ∑ j, w2 j * sub_mu j
    let exp_risk := Real.sqrt (∑ j, w2 j * (∑ k, sub_cov j k * w2 k))
    (fun i => ∑ j, if sel j = i then w2 j else 0, exp_ret, exp_risk)
  else (fun _ => 0, 0, 0)

/-- The post-sampling part of `PortfolioQUBO.solve`: map the best sample to
the allocation, compute continuous weights (all-zero weights and metrics on
an empty selection), and run the per-asset `w_i > max_weight` feasibility
scan.  `elapsed` (wall clock) and the solver name are inputs; the reason
string of an infeasible result is abstracted to a fixed text. -/
def solveFromSample {n : ℕ} (assets : Fin n → Asset) (cov : Matrix (Fin n) (Fin n) ℝ)
    (bqm : BQM n) (sample : Fin n → Bool) (elapsed : ℝ) (solver_name : String) :
    OptimizationResult n :=
  let selected := (List.finRange n).filter fun i => sample i
  let r := optimizeContinuousWeights assets cov selected
  let infeasible := ∃ i ∈ selected, (assets i).max_weight < r.1 i
  { allocation := sample
    energy := bqmEnergy bqm sample
    weights := r.1
    expected_return := r.2.1
    expected_risk := r.2.2
    solver_time_s := elapsed
    solver_used := solver_name
    feasible := if infeasible then false else true
    reason := if infeasible then "selected weight exceeds max_weight" else "" }

/-- `PortfolioQUBO.solve` on the `n ≤ 20`, `use_qpu = False` path taken by
the pipeline: build the BQM and take the exact solver's best sample. -/
def solveExact {n : ℕ} (assets : Fin n → Asset) (cov : Matrix (Fin n) (Fin n) ℝ)
    (cfg : QUBOConfig) (elapsed : ℝ) : OptimizationResult n :=
  solveFromSample assets cov (buildBQM n assets cov cfg)
    (exactBest (buildBQM n assets cov cfg)) elapsed "ExactSolver"

/-! ## Agent pipeline — `backend/agents/manager.py` -/

/-- Guardrail constants of `agents/manager.py`. -/
def MAX_POSITION_WEIGHT : ℝ := 0.40

def MAX_PORTFOLIO_RISK : ℝ := 0.45

def MIN_EXPECTED_RETURN : ℝ := 0.01

def MAX_SOLVER_TIME_S : ℝ := 5.0

def MAX_DAILY_VOLUME_USD : ℝ := 1000000

def APPROVAL_THRESHOLD_USD : ℝ := 50000

def APPROVAL_RISK_THRESHOLD : ℝ := 0.30

/-- The seven-entry `checks` dict of `risk_agent`, in insertion order. -/
structure RiskChecks where
  optimizer_feasible : Bool
  position_size_ok : Bool
  risk_within_limit : Bool
  return_sufficient : Bool
  solver_fast_enough : Bool
  assets_selected : Bool
  slippage_acceptable : Bool

/-- `all(checks.values())`. -/
def RiskChecks.allPassed (c : RiskChecks) : Bool :=
  c.optimizer_feasible && c.position_size_ok && c.risk_within_limit &&
    c.return_sufficient && c.solver_fast_enough && c.assets_selected &&
    c.slippage_acceptable

/-- `[k for k, v in checks.items() if not v]` in dict insertion order. -/
def RiskChecks.failedNames (c : RiskChecks) : List String :=
  (if c.optimizer_feasible then [] else ["optimizer_feasible"]) ++
  (if c.position_size_ok then [] else ["position_size_ok"]) ++
  (if c.risk_within_limit then [] else ["risk_within_limit"]) ++
  (if c.return_sufficient then [] else ["return_sufficient"]) ++
  (if c.solver_fast_enough then [] else ["solver_fast_enough"]) ++
  (if c.assets_selected then [] else ["assets_selected"]) ++
  (if c.slippage_acceptable then [] else ["slippage_acceptable"])

/-- `max(opt.weights.values()) if opt.weights else 0.0`. -/
def maxWeightVal {n : ℕ} (w : Fin n → ℝ) : ℝ :=
  match (List.finRange n).map w with
  | [] => 0.0
  | x :: xs => xs.foldl max x

/-- `sum(1 for v in opt.allocation.values() if v == 1)`. -/
def numSelected {n : ℕ} (a : Fin n → Bool) : ℕ :=
  ((List.finRange n).filter fun i => a i).length

/-- The outcome of `risk_agent`: when the state has no optimization result
the checks dict stays empty (`none`).  Approval/rejection reason strings
are abstracted to fixed texts (the code interpolates floats into them). -/
structure RiskResult where
  checks : Option RiskChecks
  risk_approved : Bool
  status : String
  requires_approval : Bool
  approval_reasons : List String
  failed_checks : List String

/-- The seven checks computed by `risk_agent` (manager.py lines 555-610). -/
def computeChecks {n : ℕ} (opt : OptimizationResult n)
    (slippage : List (String × SlippageEstimate)) : RiskChecks :=
  { optimizer_feasible := opt.feasible
    position_size_ok := if maxWeightVal opt.weights ≤ MAX_POSITION_WEIGHT then true else false
    risk_within_limit := if opt.expected_risk ≤ MAX_PORTFOLIO_RISK then true else false
    return_sufficient := if MIN_EXPECTED_RETURN ≤ opt.expected_return then true else false
    solver_fast_enough := if opt.solver_time_s ≤ MAX_SOLVER_TIME_S then true else false
    assets_selected := if 1 ≤ numSelected opt.allocation then true else false
    slippage_acceptable :=
      if slippage = [] then true
      else if ∃ p ∈ slippage, p.2.exceeds_max_impact = true then false else true }

/-- `total_weight_active * MAX_DAILY_VOLUME_USD` (manager.py lines 678-679),
the worst-case trade-value proxy. -/
def estimatedValue {n : ℕ} (opt : OptimizationResult n) : ℝ :=
  (∑ i, if 0 < opt.weights i then opt.weights i else 0) * MAX_DAILY_VOLUME_USD

/-- The `approval_reasons` list assembled when all checks pass (manager.py
lines 675-691); the reason texts are abstracted to fixed strings. -/
def approvalReasons {n : ℕ} (opt : OptimizationResult n) : List String :=
  (if APPROVAL_THRESHOLD_USD < estimatedValue opt then
    ["estimated trade value above approval threshold"] else []) ++
  (if APPROVAL_RISK_THRESHOLD < opt.expected_risk then
    ["portfolio risk above approval threshold"] else [])

/-- `risk_agent` of `agents/manager.py` as a function of the optimization
result and the serialized slippage estimates carried by the state. -/
def risk_agent_run {n : ℕ} (opt? : Option (OptimizationResult n))
    (slippage : List (String × SlippageEstimate)) : RiskResult :=
  match opt? with
  | none =>
      { checks := none, risk_approved := false, status := "error",
        requires_approval := false, approval_reasons := [], failed_checks := [] }
  | some opt =>
      if (computeChecks opt slippage).allPassed then
        if approvalReasons opt ≠ [] then
          { checks := some (computeChecks opt slippage), risk_approved := true,
            status := "pending_approval", requires_approval := true,
            approval_reasons := approvalReasons opt,
            failed_checks := (computeChecks opt slippage).failedNames }
        else
          { checks := some (computeChecks opt slippage), risk_approved := true,
            status := "approved", requires_approval := false, approval_reasons := [],
            failed_checks := (computeChecks opt slippage).failedNames }
      else
        { checks := some (computeChecks opt slippage), risk_approved := false,
          status := "rejected", requires_approval := false, approval_reasons := [],
          failed_checks := (computeChecks opt slippage).failedNames }

/-- The sentiment-adjustment step of `market_agent`: every asset's expected
return is incremented by `sentiment_boost + np.random.normal(0, 0.01)`,
where `sentiment_boost = (risk_tolerance - 0.5) * 0.05` and the Gaussian
draw is the explicit input `noise`. -/
def market_adjust_returns {n : ℕ} (assets : Fin n → Asset) (risk_tolerance : ℝ)
    (noise : Fin n → ℝ) : Fin n → Asset := fun i =>
  { assets i with expected_return :=
      (assets i).expected_return + ((risk_tolerance - 0.5) * 0.05 + noise i) }

/-- `make_test_universe` of `quantum/optimizer.py`: the five mock assets. -/
def make_test_universe_assets : Fin 5 → Asset :=
  ![⟨"SUI", 0.35, 0.0, 0.40⟩, ⟨"ETH", 0.20, 0.0, 0.40⟩, ⟨"BTC", 0.15, 0.0, 0.40⟩,
    ⟨"SOL", 0.30, 0.0, 0.40⟩, ⟨"AVAX", 0.25, 0.0, 0.40⟩]

/-- `make_test_universe` of `quantum/optimizer.py`: the mock covariance. -/
def make_test_universe_cov : Matrix (Fin 5) (Fin 5) ℝ :=
  !![0.160, 0.048, 0.030, 0.070, 0.055;
     0.048, 0.090, 0.045, 0.040, 0.035;
     0.030, 0.045, 0.050, 0.025, 0.020;
     0.070, 0.040, 0.025, 0.140, 0.060;
     0.055, 0.035, 0.020, 0.060, 0.110]

/-- `estimate_rebalance_slippage` of `core/slippage.py`: one estimate per
selected, positively-weighted asset, with the mock daily volumes (no
`daily_volumes` override is passed by the execution agent) and the $1 SUI
price. -/
def estimate_rebalance_slippage {n : ℕ} (assets : Fin n → Asset)
    (allocation : Fin n → Bool) (weights : Fin n → ℝ)
    (portfolio_value_usd : ℝ) : List (String × SlippageEstimate) :=
  ((List.finRange n).filter fun i => allocation i && decide (0 < weights i)).map fun i =>
    ((assets i).symbol,
      estimate_market_impact (assets i).symbol (portfolio_value_usd * weights i) none none 1.0)

/-- `execution_agent` on a populated state: the adaptive target
`K = max(2, min(n, int(n·risk) + 1))`, the QUBO config with
`λ_risk = max(0.1, 1 − risk)`, the exact solve (the pipeline's `n = 5 ≤ 20`
path), and the slippage estimation at the default $50k portfolio value.
The solver wall time is the input `elapsed`. -/
def execution_agent_run {n : ℕ} (assets : Fin n → Asset)
    (cov : Matrix (Fin n) (Fin n) ℝ) (risk_tolerance : ℝ) (elapsed : ℝ) :
    OptimizationResult n × List (String × SlippageEstimate) :=
  let target := max 2 (min n (⌊(n : ℝ) * risk_tolerance⌋₊ + 1))
  let cfg : QUBOConfig :=
    { lambda_return := 1.0, lambda_risk := max 0.1 (1.0 - risk_tolerance),
      lambda_budget := 2.0, target_assets := target, num_reads := 200, use_qpu := false }
  let result := solveExact assets cov cfg elapsed
  (result,
    if 0 < n then estimate_rebalance_slippage assets result.allocation result.weights 50000
    else [])

/-- The full pipeline `Market → Execution → Risk` on mock market data:
`make_test_universe`, the sentiment adjustment with the Gaussian draw
`noise`, then the execution and risk agents. -/
def run_pipeline_mock (risk_tolerance : ℝ) (noise : Fin 5 → ℝ) (elapsed : ℝ) :
    RiskResult × OptimizationResult 5 :=
  let assets := market_adjust_returns make_test_universe_assets risk_tolerance noise
  let er := execution_agent_run assets make_test_universe_cov risk_tolerance elapsed
  (risk_agent_run (some er.1) er.2, er.1)

/-- Helper: `risk_agent_run` on a present optimization result, unfolded. -/
lemma risk_agent_run_some {n : ℕ} (opt : OptimizationResult n)
    (slippage : List (String × SlippageEstimate)) :
    risk_agent_run (some opt) slippage =
      if (computeChecks opt slippage).allPassed then
        if approvalReasons opt ≠ [] then
          { checks := some (computeChecks opt slippage), risk_approved := true,
            status := "pending_approval", requires_approval := true,
            approval_reasons := approvalReasons opt,
            failed_checks := (computeChecks opt slippage).failedNames }
        else
          { checks := some (computeChecks opt slippage), risk_approved := true,
            status := "approved", requires_approval := false, approval_reasons := [],
            failed_checks := (computeChecks opt slippage).failedNames }
      else
        { checks := some (computeChecks opt slippage), risk_approved := false,
          status := "rejected", requires_approval := false, approval_reasons := [],
          failed_checks := (computeChecks opt slippage).failedNames } := rfl

/-- Helper: the rejected branch of the risk agent. -/
lemma risk_agent_run_rejected {n : ℕ} (opt : OptimizationResult n)
    (slippage : List (String × SlippageEstimate))
    (hfail : (computeChecks opt slippage).allPassed = false) :
    risk_agent_run (some opt) slippage =
      { checks := some (computeChecks opt slippage), risk_approved := false,
        status := "rejected", requires_approval := false, approval_reasons := [],
        failed_checks := (computeChecks opt slippage).failedNames } := by
  rw [risk_agent_run_some, hfail]
  simp

/-- Helper: the pending-approval branch of the risk agent. -/
lemma risk_agent_run_pending {n : ℕ} (opt : OptimizationResult n)
    (slippage : List (String × SlippageEstimate))
    (hpass : (computeChecks opt slippage).allPassed = true)
    (hreasons : approvalReasons opt ≠ []) :
    risk_agent_run (some opt) slippage =
      { checks := some (computeChecks opt slippage), risk_approved := true,
        status := "pending_approval", requires_approval := true,
        approval_reasons := approvalReasons opt,
        failed_checks := (computeChecks opt slippage).failedNames } := by
  rw [risk_agent_run_some, hpass]
  simp [hreasons]

/-- Helper: the approved branch of the risk agent. -/
lemma risk_agent_run_approved {n : ℕ} (opt : OptimizationResult n)
    (slippage : List (String × SlippageEstimate))
    (hpass : (computeChecks opt slippage).allPassed = true)
    (hreasons : approvalReasons opt = []) :
    risk_agent_run (some opt) slippage =
      { checks := some (computeChecks opt slippage), risk_approved := true,
        status := "approved", requires_approval := false, approval_reasons := [],
        failed_checks := (computeChecks opt slippage).failedNames } := by
  rw [risk_agent_run_some, hpass]
  simp [hreasons]

/-! ### C7 — the market agent's return adjustment -/

/-- C7, counterexample: with a non-zero Gaussian draw (here 0.01) the
post-adjustment return differs from "pre + Δ": the code adds
`np.random.normal(0, 0.01)` on top of the sentiment adjustment, so two runs
on the same inputs need not agree. -/
theorem c7_sentiment_counterexample :
    (market_adjust_returns make_test_universe_assets 0.5 (fun _ => 0.01) 0).expected_return ≠
      (make_test_universe_assets 0).expected_return + (0.5 - 0.5) * 0.05 := by
  simp only [market_adjust_returns, make_test_universe_assets, Matrix.cons_val_zero]
  norm_num

/-- C7 (amended): the market agent adds `Δ + noiseᵢ` to every asset's
expected return, where `Δ = (risk_tolerance − 0.5)·0.05` and `noiseᵢ` is a
per-asset `N(0, 0.01)` draw; only with a zero draw does the adjustment
equal exactly Δ. -/
theorem c7_sentiment_amended (n : ℕ) (assets : Fin n → Asset) (r : ℝ)
    (noise : Fin n → ℝ) (i : Fin n) :
    (market_adjust_returns assets r noise i).expected_return =
      (assets i).expected_return + (r - 0.5) * 0.05 + noise i
    ∧ (market_adjust_returns assets r (fun _ => 0) i).expected_return =
      (assets i).expected_return + (r - 0.5) * 0.05 := by
  constructor <;> simp [market_adjust_returns] <;> ring

/-! ### C9 — the empty selection in `solve` -/

/-- C9: when the best sample sets no allocation bit, `solve` returns all-zero
weights, zero expected return and risk, and `feasible = true` (the per-asset
feasibility scan ranges over an empty selection); it is the risk agent's
`assets_selected` check, not the solver, that then rejects the state. -/
theorem c9_empty_selection {n : ℕ} (assets : Fin n → Asset)
    (cov : Matrix (Fin n) (Fin n) ℝ) (bqm : BQM n) (sample : Fin n → Bool)
    (elapsed : ℝ) (name : String) (r : OptimizationResult n)
    (h : ∀ i, sample i = false)
    (hr : solveFromSample assets cov bqm sample elapsed name = r) :
    (∀ i, r.weights i = 0) ∧ r.expected_return = 0 ∧ r.expected_risk = 0 ∧
    r.feasible = true ∧
    (∀ slippage, (risk_agent_run (some r) slippage).status = "rejected" ∧
      ∃ c, (risk_agent_run (some r) slippage).checks = some c ∧
        c.assets_selected = false) := by
  have hsel : ((List.finRange n).filter fun i => sample i) = [] := by
    rw [List.filter_eq_nil]
    intro a _
    simp [h a]
  have hopt : optimizeContinuousWeights assets cov ([] : List (Fin n)) =
      (fun _ => 0, 0, 0) := by
    rw [optimizeContinuousWeights, dif_neg]
    simp
  have hno : ¬ ∃ i ∈ ([] : List (Fin n)),
      (assets i).max_weight < (optimizeContinuousWeights assets cov ([] : List (Fin n))).1 i := by
    simp
  have hrw : r = solveFromSample assets cov bqm sample elapsed name := hr.symm
  have hnum : numSelected sample = 0 := by
    simp [numSelected, hsel]
  subst hrw
  refine ⟨?_, ?_, ?_, ?_, fun slippage => ?_⟩
  · intro i
    simp only [solveFromSample, hsel, hopt]
  · simp only [solveFromSample, hsel, hopt]
  · simp only [solveFromSample, hsel, hopt]
  · simp only [solveFromSample, hsel, hopt]
    rw [if_neg (by simp)]
  · have halloc : numSelected (solveFromSample assets cov bqm sample elapsed name).allocation
        = 0 := hnum
    have hselc : (computeChecks (solveFromSample assets cov bqm sample elapsed name)
        slippage).assets_selected = false := by
      simp only [computeChecks, halloc]
      norm_num
    have hfail : (computeChecks (solveFromSample assets cov bqm sample elapsed name)
        slippage).allPassed = false := by
      simp [RiskChecks.allPassed, hselc]
    rw [risk_agent_run_rejected _ _ hfail]
    exact ⟨rfl, ⟨_, rfl, hselc⟩⟩

/-- A 1-asset universe whose only asset has hugely negative expected return,
so the exact solver's best sample is the empty selection. -/
def c9Assets : Fin 1 → Asset := ![⟨"X", -100, 0.0, 0.40⟩]

/-- Its 1×1 covariance. -/
def c9Cov : Matrix (Fin 1) (Fin 1) ℝ := !![0.04]

lemma c9_quad : (buildBQM 1 c9Assets c9Cov {}).quadratic = [] := by
  have h1 : List.finRange 1 = [(0 : Fin 1)] := by decide
  simp [buildBQM, h1, List.filter]

lemma c9_e_false : bqmEnergy (buildBQM 1 c9Assets c9Cov {}) (fun _ => false) = 18 := by
  simp [bqmEnergy, c9_quad, buildBQM]
  norm_num

lemma c9_e_true (x : Fin 1 → Bool) (hx : x 0 = true) :
    bqmEnergy (buildBQM 1 c9Assets c9Cov {}) x = 108.02 := by
  rw [bqmEnergy, c9_quad]
  rw [Fin.sum_univ_one, hx]
  simp only [buildBQM, c9Assets, c9Cov, Matrix.cons_val_zero, if_pos]
  norm_num [Matrix.cons_val', Matrix.cons_val_zero, Matrix.empty_val',
    Matrix.cons_val_fin_one, Matrix.of_apply]

lemma c9_best : exactBest (buildBQM 1 c9Assets c9Cov {}) = fun _ => false := by
  apply exactBest_eq_of_strict
  intro x hx
  have hx0 : x 0 = true := by
    cases h0 : x 0 with
    | true => rfl
    | false =>
        exfalso
        apply hx
        funext i
        have hi : i = (0 : Fin 1) := Subsingleton.elim _ _
        rw [hi, h0]
  rw [c9_e_false, c9_e_true x hx0]
  norm_num

/-- Witness for `c9_empty_selection`: the 1-asset universe with return −100
really produces an empty best sample, and `solve` returns the benign
all-zero, feasible result that the risk agent then rejects. -/
theorem c9_empty_selection_witness :
    (∀ i, exactBest (buildBQM 1 c9Assets c9Cov {}) i = false) ∧
    (∀ i, (solveFromSample c9Assets c9Cov (buildBQM 1 c9Assets c9Cov {})
        (exactBest (buildBQM 1 c9Assets c9Cov {})) 0.1 "ExactSolver").weights i = 0) ∧
    (solveFromSample c9Assets c9Cov (buildBQM 1 c9Assets c9Cov {})
        (exactBest (buildBQM 1 c9Assets c9Cov {})) 0.1 "ExactSolver").feasible = true ∧
    (risk_agent_run (some (solveFromSample c9Assets c9Cov (buildBQM 1 c9Assets c9Cov {})
        (exactBest (buildBQM 1 c9Assets c9Cov {})) 0.1 "ExactSolver")) []).status =
      "rejected" := by
  have hfalse : ∀ i, exactBest (buildBQM 1 c9Assets c9Cov {}) i = false := by
    intro i
    rw [c9_best]
  have h := c9_empty_selection c9Assets c9Cov (buildBQM 1 c9Assets c9Cov {})
    (exactBest (buildBQM 1 c9Assets c9Cov {})) 0.1 "ExactSolver" _ hfalse rfl
  exact ⟨hfalse, h.1, h.2.2.2.1, (h.2.2.2.2 []).1⟩

/-! ### C1 — the risk guardrail state machine -/

lemma bool_if_iff (c : Prop) [Decidable c] : ((if c then true else false) = true) ↔ c := by
  split_ifs with h <;> simp [h]

lemma bool_if_false_iff (c : Prop) [Decidable c] :
    ((if c then true else false) = false) ↔ ¬ c := by
  split_ifs with h <;> simp [h]

/-- Helper: semantics of check 7 (`slippage_acceptable`). -/
lemma slippage_check_iff (slippage : List (String × SlippageEstimate)) :
    ((if slippage = [] then true
      else if ∃ p ∈ slippage, p.2.exceeds_max_impact = true then false else true) = true) ↔
    (slippage = [] ∨ ∀ p ∈ slippage, p.2.exceeds_max_impact = false) := by
  split_ifs with h1 h2
  · simp [h1]
  · simp only [Bool.false_eq_true, false_iff]
    rintro (h | h)
    · exact h1 h
    · obtain ⟨p, hp, hflag⟩ := h2
      rw [h p hp] at hflag
      cases hflag
  · simp only [true_iff]
    right
    intro p hp
    by_contra hne
    exact h2 ⟨p, hp, by revert hne; cases p.2.exceeds_max_impact <;> simp⟩

/-- Helper: `all(checks.values())` in terms of the guardrail conditions. -/
lemma allPassed_iff {n : ℕ} (opt : OptimizationResult n)
    (slippage : List (String × SlippageEstimate)) :
    (computeChecks opt slippage).allPassed = true ↔
      (opt.feasible = true ∧ maxWeightVal opt.weights ≤ MAX_POSITION_WEIGHT ∧
       opt.expected_risk ≤ MAX_PORTFOLIO_RISK ∧
       MIN_EXPECTED_RETURN ≤ opt.expected_return ∧
       opt.solver_time_s ≤ MAX_SOLVER_TIME_S ∧
       1 ≤ numSelected opt.allocation ∧
       (slippage = [] ∨ ∀ p ∈ slippage, p.2.exceeds_max_impact = false)) := by
  simp only [computeChecks, RiskChecks.allPassed, Bool.and_eq_true, bool_if_iff,
    slippage_check_iff]
  tauto

/-- Helper: the approval-reasons list is non-empty exactly when one of the
two thresholds is crossed. -/
lemma approvalReasons_ne_iff {n : ℕ} (opt : OptimizationResult n) :
    approvalReasons opt ≠ [] ↔
      (APPROVAL_THRESHOLD_USD < estimatedValue opt ∨
        APPROVAL_RISK_THRESHOLD < opt.expected_risk) := by
  simp only [approvalReasons]
  split_ifs with h1 h2 <;> simp [h1, *]

lemma mem_flag {x s : String} {b : Bool} :
    x ∈ (if b then ([] : List String) else [s]) ↔ (b = false ∧ x = s) := by
  cases b <;> simp

/-- Helper: membership in the failing-names list. -/
lemma mem_failedNames (c : RiskChecks) (nm : String) :
    nm ∈ c.failedNames ↔
      ((nm = "optimizer_feasible" ∧ c.optimizer_feasible = false) ∨
       (nm = "position_size_ok" ∧ c.position_size_ok = false) ∨
       (nm = "risk_within_limit" ∧ c.risk_within_limit = false) ∨
       (nm = "return_sufficient" ∧ c.return_sufficient = false) ∨
       (nm = "solver_fast_enough" ∧ c.solver_fast_enough = false) ∨
       (nm = "assets_selected" ∧ c.assets_selected = false) ∨
       (nm = "slippage_acceptable" ∧ c.slippage_acceptable = false)) := by
  simp only [RiskChecks.failedNames, List.mem_append, mem_flag]
  tauto

/-- Helper: a failing check always leaves a name in the list. -/
lemma failedNames_ne_nil (c : RiskChecks) (h : c.allPassed = false) :
    c.failedNames ≠ [] := by
  rcases c with ⟨b1, b2, b3, b4, b5, b6, b7⟩
  cases b1 <;> cases b2 <;> cases b3 <;> cases b4 <;> cases b5 <;> cases b6 <;> cases b7 <;>
    simp_all [RiskChecks.allPassed, RiskChecks.failedNames]

/-- C1: on a pipeline state carrying an optimization result,
`risk_approved` holds iff all seven checks pass; a failing check yields the
terminal status `rejected` with the failing check names attached; with all
checks passing, crossing the $50,000 trade-value threshold or the 0.30 risk
threshold yields `pending_approval` with non-empty `approval_reasons`, and
otherwise the status is `approved`. -/
theorem c1_risk_guardrails {n : ℕ} (opt : OptimizationResult n)
    (slippage : List (String × SlippageEstimate)) (r : RiskResult)
    (hr : risk_agent_run (some opt) slippage = r) :
    (r.risk_approved = true ↔
      (opt.feasible = true ∧ maxWeightVal opt.weights ≤ MAX_POSITION_WEIGHT ∧
       opt.expected_risk ≤ MAX_PORTFOLIO_RISK ∧
       MIN_EXPECTED_RETURN ≤ opt.expected_return ∧
       opt.solver_time_s ≤ MAX_SOLVER_TIME_S ∧
       1 ≤ numSelected opt.allocation ∧
       (slippage = [] ∨ ∀ p ∈ slippage, p.2.exceeds_max_impact = false)))
    ∧ (r.risk_approved = false →
        r.status = "rejected" ∧ r.failed_checks ≠ [] ∧
        (∀ nm : String, nm ∈ r.failed_checks ↔
          ((nm = "optimizer_feasible" ∧ opt.feasible = false) ∨
           (nm = "position_size_ok" ∧ ¬ maxWeightVal opt.weights ≤ MAX_POSITION_WEIGHT) ∨
           (nm = "risk_within_limit" ∧ ¬ opt.expected_risk ≤ MAX_PORTFOLIO_RISK) ∨
           (nm = "return_sufficient" ∧ ¬ MIN_EXPECTED_RETURN ≤ opt.expected_return) ∨
           (nm = "solver_fast_enough" ∧ ¬ opt.solver_time_s ≤ MAX_SOLVER_TIME_S) ∨
           (nm = "assets_selected" ∧ ¬ 1 ≤ numSelected opt.allocation) ∨
           (nm = "slippage_acceptable" ∧
             ¬ (slippage = [] ∨ ∀ p ∈ slippage, p.2.exceeds_max_impact = false)))))
    ∧ (r.risk_approved = true →
        ((APPROVAL_THRESHOLD_USD < estimatedValue opt ∨
          APPROVAL_RISK_THRESHOLD < opt.expected_risk) →
          r.status = "pending_approval" ∧ r.approval_reasons ≠ []) ∧
        (¬ (APPROVAL_THRESHOLD_USD < estimatedValue opt ∨
          APPROVAL_RISK_THRESHOLD < opt.expected_risk) →
          r.status = "approved" ∧ r.approval_reasons = [])) := by
  have hmem : ∀ nm : String,
      nm ∈ (computeChecks opt slippage).failedNames ↔
      ((nm = "optimizer_feasible" ∧ opt.feasible = false) ∨
       (nm = "position_size_ok" ∧ ¬ maxWeightVal opt.weights ≤ MAX_POSITION_WEIGHT) ∨
       (nm = "risk_within_limit" ∧ ¬ opt.expected_risk ≤ MAX_PORTFOLIO_RISK) ∨
       (nm = "return_sufficient" ∧ ¬ MIN_EXPECTED_RETURN ≤ opt.expected_return) ∨
       (nm = "solver_fast_enough" ∧ ¬ opt.solver_time_s ≤ MAX_SOLVER_TIME_S) ∨
       (nm = "assets_selected" ∧ ¬ 1 ≤ numSelected opt.allocation) ∨
       (nm = "slippage_acceptable" ∧
         ¬ (slippage = [] ∨ ∀ p ∈ slippage, p.2.exceeds_max_impact = false))) := by
    intro nm
    rw [mem_failedNames]
    have h7 : (computeChecks opt slippage).slippage_acceptable = false ↔
        ¬ (slippage = [] ∨ ∀ p ∈ slippage, p.2.exceeds_max_impact = false) := by
      rw [← slippage_check_iff slippage]
      simp only [computeChecks]
      cases hsc : (if slippage = [] then true
        else if ∃ p ∈ slippage, p.2.exceeds_max_impact = true then false else true) <;> simp
    simp only [computeChecks] at h7 ⊢
    rw [h7, bool_if_false_iff, bool_if_false_iff, bool_if_false_iff, bool_if_false_iff,
      bool_if_false_iff]
  by_cases hall : (computeChecks opt slippage).allPassed = true
  · by_cases hreas : approvalReasons opt ≠ []
    · rw [risk_agent_run_pending _ _ hall hreas] at hr
      subst hr
      refine ⟨iff_of_true rfl ((allPassed_iff opt slippage).mp hall), ?_, ?_⟩
      · intro habs
        cases habs
      · intro _
        refine ⟨fun _ => ⟨rfl, hreas⟩, fun hno => ?_⟩
        exact absurd ((approvalReasons_ne_iff opt).mp hreas) hno
    · rw [not_not] at hreas
      rw [risk_agent_run_approved _ _ hall hreas] at hr
      subst hr
      refine ⟨iff_of_true rfl ((allPassed_iff opt slippage).mp hall), ?_, ?_⟩
      · intro habs
        cases habs
      · intro _
        refine ⟨fun hyes => ?_, fun _ => ⟨rfl, rfl⟩⟩
        exact absurd hyes (by rw [← approvalReasons_ne_iff opt, not_not]; exact hreas)
  · have hall' : (computeChecks opt slippage).allPassed = false := by
      revert hall
      cases (computeChecks opt slippage).allPassed <;> simp
    rw [risk_agent_run_rejected _ _ hall'] at hr
    subst hr
    refine ⟨iff_of_false (by simp) (fun hc => hall ((allPassed_iff opt slippage).mpr hc)),
      ?_, ?_⟩
    · intro _
      exact ⟨rfl, failedNames_ne_nil _ hall', hmem⟩
    · intro habs
      cases habs

/-- A small passing optimizer state for the `c1` witness. -/
def c1wOpt : OptimizationResult 2 where
  allocation := ![true, false]
  energy := -1
  weights := ![0.03, 0]
  expected_return := 0.2
  expected_risk := 0.2
  solver_time_s := 0.5
  solver_used := "ExactSolver"
  feasible := true
  reason := ""

/-- Witness for `c1_risk_guardrails`: a small passing state ($30k estimated
value, risk 0.2) comes out `approved` with full risk approval. -/
theorem c1_risk_guardrails_witness :
    (risk_agent_run (some c1wOpt) []).risk_approved = true ∧
    (risk_agent_run (some c1wOpt) []).status = "approved" := by
  have h := c1_risk_guardrails c1wOpt [] _ rfl
  have hmax : maxWeightVal c1wOpt.weights = 0.03 := by
    have h2 : List.finRange 2 = [0, 1] := by decide
    simp [maxWeightVal, c1wOpt, h2]
    norm_num
  have hnum : numSelected c1wOpt.allocation = 1 := by
    have h2 : List.finRange 2 = [0, 1] := by decide
    simp [numSelected, c1wOpt, h2, List.filter]
  have happ : (risk_agent_run (some c1wOpt) []).risk_approved = true := by
    rw [h.1]
    refine ⟨rfl, ?_, by norm_num [c1wOpt, MAX_PORTFOLIO_RISK],
      by norm_num [c1wOpt, MIN_EXPECTED_RETURN],
      by norm_num [c1wOpt, MAX_SOLVER_TIME_S], by rw [hnum], Or.inl rfl⟩
    rw [hmax]
    norm_num [MAX_POSITION_WEIGHT]
  have hest : estimatedValue c1wOpt = 30000 := by
    simp only [estimatedValue, MAX_DAILY_VOLUME_USD, c1wOpt]
    rw [Fin.sum_univ_two]
    norm_num
  refine ⟨happ, ?_⟩
  have hc := (h.2.2 happ).2
  refine (hc ?_).1
  rw [hest]
  push_neg
  refine ⟨by norm_num [APPROVAL_THRESHOLD_USD], ?_⟩
  norm_num [c1wOpt, APPROVAL_RISK_THRESHOLD]

/-! ### C2 — invariants of the continuous weight optimizer -/

/-- The pre-normalisation stage of `_project_simplex_bounded` (clip to ≥ 0,
renormalise, uniform fallback on vanishing mass). -/
def projInit {m : ℕ} (w0 : Fin m → ℝ) : Fin m → ℝ :=
  let w1 : Fin m → ℝ := fun i => max (w0 i) 0
  if 1e-12 < (∑ i, w1 i) then fun i => w1 i / (∑ i, w1 i) else fun _ => (1 : ℝ) / (m : ℝ)

/-- The final clip-and-renormalise stage of `_project_simplex_bounded`,
applied to the already-clipped vector. -/
def projFinal {m : ℕ} (c : Fin m → ℝ) : Fin m → ℝ :=
  if 1e-8 < |(∑ i, c i) - 1.0| ∧ 1e-12 < (∑ i, c i) then fun i => c i / (∑ i, c i) else c

lemma projectSimplexBounded_eq {m : ℕ} (w0 ub : Fin m → ℝ) (k : ℕ) :
    projectSimplexBounded w0 ub k = projFinal (clipv ub (projLoop ub k (projInit w0))) := rfl

/-- The loop invariant of the projection iteration: either the iterate sums
to exactly 1, or it is a box vector whose sum drifted by less than 1e-10. -/
def ProjInv {m : ℕ} (ub w : Fin m → ℝ) : Prop :=
  (∑ i, w i) = 1 ∨ (|(∑ i, w i) - 1| < 1e-10 ∧ ∀ i, 0 ≤ w i ∧ w i ≤ ub i)

lemma clipv_box {m : ℕ} {ub : Fin m → ℝ} (hub : ∀ i, 0 ≤ ub i) (w : Fin m → ℝ)
    (i : Fin m) : 0 ≤ clipv ub w i ∧ clipv ub w i ≤ ub i :=
  ⟨le_min (le_max_right _ _) (hub i), min_le_right _ _⟩

lemma sum_if_sub {m : ℕ} (c : Fin m → ℝ) (e : ℝ) (p : Fin m → Prop)
    (hn : (Finset.univ.filter p).card ≠ 0) :
    (∑ i, if p i then c i - e / ((Finset.univ.filter p).card : ℝ) else c i)
      = (∑ i, c i) - e := by
  have h1 : ∀ i : Fin m,
      (if p i then c i - e / ((Finset.univ.filter p).card : ℝ) else c i)
        = c i - (if p i then e / ((Finset.univ.filter p).card : ℝ) else 0) := by
    intro i
    split_ifs <;> ring
  rw [Finset.sum_congr rfl fun i _ => h1 i, Finset.sum_sub_distrib]
  congr 1
  rw [← Finset.sum_filter, Finset.sum_const, nsmul_eq_mul, mul_comm]
  exact div_mul_cancel₀ e (by exact_mod_cast hn)

/-- A continuing projection iteration restores the sum to exactly 1. -/
lemma projStep_inr_sum {m : ℕ} {ub w w' : Fin m → ℝ}
    (h : projStep ub w = Sum.inr w') : (∑ i, w' i) = 1 := by
  simp only [projStep] at h
  split_ifs at h with h1 h2 h3 h4 h5
  · rcases h with ⟨⟩
    have hs := sum_if_sub (clipv ub w) ((∑ i, clipv ub w i) - 1.0) _ h3
    simp only [hs]
    ring
  · rcases h with ⟨⟩
    have hs := sum_if_sub (clipv ub w) ((∑ i, clipv ub w i) - 1.0) _ h5
    simp only [hs]
    ring

/-- A breaking projection iteration preserves the loop invariant. -/
lemma projStep_inl_inv {m : ℕ} {ub w out : Fin m → ℝ} (hub : ∀ i, 0 ≤ ub i)
    (h : projStep ub w = Sum.inl out) (hw : ProjInv ub w) : ProjInv ub out := by
  simp only [projStep] at h
  split_ifs at h with h1 h2 h3 h4 h5 h6
  · rcases h with ⟨⟩
    refine Or.inr ⟨?_, fun i => clipv_box hub w i⟩
    calc |(∑ i, clipv ub w i) - 1| = |(∑ i, clipv ub w i) - 1.0| := by norm_num
    _ < 1e-10 := h1
  · rcases h with ⟨⟩
    refine Or.inl ?_
    have hs : (∑ i, (fun i => clipv ub w i / (∑ k, clipv ub w k)) i)
        = (∑ i, clipv ub w i) / (∑ k, clipv ub w k) := by
      simp only []
      rw [Finset.sum_div]
    simp only [hs]
    exact div_self (ne_of_gt (lt_trans (by norm_num) h4))
  · rcases h with ⟨⟩
    exact hw
  · rcases h with ⟨⟩
    refine Or.inl ?_
    have hs : (∑ i, (fun i => clipv ub w i / (∑ k, clipv ub w k)) i)
        = (∑ i, clipv ub w i) / (∑ k, clipv ub w k) := by
      simp only []
      rw [Finset.sum_div]
    simp only [hs]
    exact div_self (ne_of_gt (lt_trans (by norm_num) h6))
  · rcases h with ⟨⟩
    exact hw

lemma projLoop_inv {m : ℕ} {ub : Fin m → ℝ} (hub : ∀ i, 0 ≤ ub i) :
    ∀ (fuel : ℕ) (w : Fin m → ℝ), ProjInv ub w → ProjInv ub (projLoop ub fuel w) := by
  intro fuel
  induction fuel with
  | zero =>
      intro w hw
      simpa only [projLoop] using hw
  | succ k ih =>
      intro w hw
      rcases hstep : projStep ub w with out | w'
      · have : projLoop ub (k + 1) w = out := by
          simp only [projLoop, hstep]
        rw [this]
        exact projStep_inl_inv hub hstep hw
      · have : projLoop ub (k + 1) w = projLoop ub k w' := by
          simp only [projLoop, hstep]
        rw [this]
        exact ih w' (Or.inl (projStep_inr_sum hstep))

lemma projInit_sum {m : ℕ} (hm : 0 < m) (w0 : Fin m → ℝ) :
    (∑ i, projInit w0 i) = 1 := by
  simp only [projInit]
  split_ifs with h
  · rw [← Finset.sum_div]
    exact div_self (ne_of_gt (lt_trans (by norm_num) h))
  · rw [Finset.sum_const, Finset.card_univ, Fintype.card_fin, nsmul_eq_mul]
    rw [mul_one_div]
    exact div_self (by exact_mod_cast hm.ne')

/-- Bounds delivered by the final clip-and-renormalise stage: a sum within
1e-8 of 1 and entries in `[0, 1]`. -/
lemma projFinal_bounds {m : ℕ} {ub w3 : Fin m → ℝ} (hm : 0 < m)
    (hub : ∀ i, 1e-10 ≤ ub i ∧ ub i ≤ 1) (hmR : (m : ℝ) ≤ 1e9)
    (hP : ProjInv ub w3) :
    |(∑ i, projFinal (clipv ub w3) i) - 1| ≤ 1e-6 ∧
      ∀ i, 0 ≤ projFinal (clipv ub w3) i ∧ projFinal (clipv ub w3) i ≤ 1 := by
  have h10 : (1.0 : ℝ) = 1 := by norm_num
  have hub0 : ∀ i, 0 ≤ ub i := fun i => le_trans (by norm_num) (hub i).1
  have hbox := clipv_box hub0 w3
  rcases hP with hsum | ⟨hdrift, hin⟩
  · have hmR0 : (0 : ℝ) < (m : ℝ) := by exact_mod_cast hm
    have hle : (∑ _i : Fin m, (1 : ℝ) / (m : ℝ)) ≤ ∑ i, w3 i := by
      rw [Finset.sum_const, Finset.card_univ, Fintype.card_fin, nsmul_eq_mul, mul_one_div,
        div_self (ne_of_gt hmR0), hsum]
    obtain ⟨i₀, -, hi₀⟩ := Finset.exists_le_of_sum_le ⟨⟨0, hm⟩, Finset.mem_univ _⟩ hle
    have h1m : (1e-9 : ℝ) ≤ 1 / (m : ℝ) := by
      rw [le_div_iff hmR0]
      linarith
    have hc0 : (1e-10 : ℝ) ≤ clipv ub w3 i₀ := by
      have h1 : min ((1 : ℝ) / (m : ℝ)) (ub i₀) ≤ clipv ub w3 i₀ :=
        min_le_min (le_trans hi₀ (le_max_left _ _)) (le_refl _)
      have h2 : (1e-10 : ℝ) ≤ min ((1 : ℝ) / (m : ℝ)) (ub i₀) :=
        le_min (le_trans (by norm_num) h1m) (hub i₀).1
      linarith
    have hsingle := Finset.single_le_sum (f := fun i => clipv ub w3 i)
      (fun i _ => (hbox i).1) (Finset.mem_univ i₀)
    have hSpos : (0 : ℝ) < ∑ i, clipv ub w3 i := by linarith
    have hS12 : (1e-12 : ℝ) < ∑ i, clipv ub w3 i := by linarith
    by_cases hdr : 1e-8 < |(∑ i, clipv ub w3 i) - 1.0|
    · have hout : projFinal (clipv ub w3)
          = fun i => clipv ub w3 i / (∑ k, clipv ub w3 k) := by
        unfold projFinal
        rw [if_pos ⟨hdr, hS12⟩]
      rw [hout]
      have hsum1 : (∑ i, (fun i => clipv ub w3 i / (∑ k, clipv ub w3 k)) i) = 1 := by
        simp only []
        rw [← Finset.sum_div]
        exact div_self (ne_of_gt hSpos)
      refine ⟨by rw [hsum1]; norm_num, fun i => ⟨?_, ?_⟩⟩
      · exact div_nonneg (hbox i).1 (le_of_lt hSpos)
      · refine (div_le_one hSpos).mpr ?_
        exact Finset.single_le_sum (fun j _ => (hbox j).1) (Finset.mem_univ i)
    · have hout : projFinal (clipv ub w3) = clipv ub w3 := by
        unfold projFinal
        exact if_neg fun hc => hdr hc.1
      rw [hout]
      refine ⟨?_, fun i => ⟨(hbox i).1, le_trans (hbox i).2 (hub i).2⟩⟩
      have hd := le_of_not_lt hdr
      rw [h10] at hd
      linarith
  · have hcid : clipv ub w3 = w3 := funext fun i => by
      unfold clipv
      rw [max_eq_left (hin i).1, min_eq_left (hin i).2]
    have hout : projFinal (clipv ub w3) = w3 := by
      rw [hcid]
      unfold projFinal
      rw [if_neg]
      rintro ⟨ha, -⟩
      rw [h10] at ha
      linarith
    rw [hout]
    exact ⟨le_trans (le_of_lt hdrift) (by norm_num),
      fun i => ⟨(hin i).1, le_trans (hin i).2 (hub i).2⟩⟩

/-- The `_project_simplex_bounded` output invariant: for box bounds between
1e-10 and 1 and at most 1e9 coordinates, the result sums to 1 within 1e-6
and lies in `[0, 1]` — but NOT necessarily below the box bound, because the
final renormalisation divides the clipped vector by its sum. -/
lemma projectSimplexBounded_bounds {m : ℕ} (w0 ub : Fin m → ℝ) (fuel : ℕ) (hm : 0 < m)
    (hub : ∀ i, 1e-10 ≤ ub i ∧ ub i ≤ 1) (hmR : (m : ℝ) ≤ 1e9) :
    |(∑ i, projectSimplexBounded w0 ub fuel i) - 1| ≤ 1e-6 ∧
      ∀ i, 0 ≤ projectSimplexBounded w0 ub fuel i ∧ projectSimplexBounded w0 ub fuel i ≤ 1 := by
  rw [projectSimplexBounded_eq]
  exact projFinal_bounds hm hub hmR
    (projLoop_inv (fun i => le_trans (by norm_num) (hub i).1) fuel _
      (Or.inl (projInit_sum hm w0)))

/-- The excess-removal loop keeps every weight at or above the 0.05 floor. -/
lemma reduceLoop_ge {m : ℕ} (hm : 0 < m) :
    ∀ (k : ℕ) (w : Fin m → ℝ) (excess : ℝ), 0 ≤ excess → (∀ j, 0.05 ≤ w j) →
      ∀ j, 0.05 ≤ reduceLoop hm k w excess j := by
  intro k
  induction k with
  | zero =>
      intro w e _ hw j
      simpa only [reduceLoop] using hw j
  | succ k ih =>
      intro w e he hw j
      have hred : min e (w (argmaxIdx hm w) - 0.05) ≤ w (argmaxIdx hm w) - 0.05 :=
        min_le_right _ _
      have hred0 : min e (w (argmaxIdx hm w) - 0.05) ≤ e := min_le_left _ _
      have hw' : ∀ j', 0.05 ≤ Function.update w (argmaxIdx hm w)
          (w (argmaxIdx hm w) - min e (w (argmaxIdx hm w) - 0.05)) j' := by
        intro j'
        rcases eq_or_ne j' (argmaxIdx hm w) with hj | hj
        · rw [hj, Function.update_same]
          linarith
        · rw [Function.update_noteq hj]
          exact hw j'
      have hstep : reduceLoop hm (k + 1) w e =
          if |e - min e (w (argmaxIdx hm w) - 0.05)| < 1e-10 then
            Function.update w (argmaxIdx hm w)
              (w (argmaxIdx hm w) - min e (w (argmaxIdx hm w) - 0.05))
          else
            reduceLoop hm k
              (Function.update w (argmaxIdx hm w)
                (w (argmaxIdx hm w) - min e (w (argmaxIdx hm w) - 0.05)))
              (e - min e (w (argmaxIdx hm w) - 0.05)) := by
        simp only [reduceLoop]
      rw [hstep]
      split_ifs with hstop
      · exact hw' j
      · exact ih _ _ (by linarith) hw' j

/-- Renormalising a vector of entries ≥ 0.05 gives a unit-sum vector
in `[0, 1]`. -/
lemma renorm_bounds {m : ℕ} (hm : 0 < m) (wr : Fin m → ℝ) (hwr : ∀ j, 0.05 ≤ wr j) :
    |(∑ j, wr j / (∑ k, wr k)) - 1| ≤ 1e-6 ∧
      ∀ j, 0 ≤ wr j / (∑ k, wr k) ∧ wr j / (∑ k, wr k) ≤ 1 := by
  have hpos : (0 : ℝ) < ∑ k, wr k :=
    Finset.sum_pos (fun j _ => lt_of_lt_of_le (by norm_num) (hwr j))
      ⟨⟨0, hm⟩, Finset.mem_univ _⟩
  have h1 : (∑ j, wr j / (∑ k, wr k)) = 1 := by
    rw [← Finset.sum_div]
    exact div_self (ne_of_gt hpos)
  refine ⟨by rw [h1]; norm_num, fun j => ⟨?_, ?_⟩⟩
  · exact div_nonneg (le_trans (by norm_num) (hwr j)) (le_of_lt hpos)
  · exact (div_le_one hpos).mpr
      (Finset.single_le_sum (fun k _ => le_trans (by norm_num) (hwr k)) (Finset.mem_univ j))

/-- The minimum-weight remediation stage of `_optimize_continuous_weights`
(blend towards uniform, re-project, floor at 0.05, peel excess off the
largest weights, renormalise). -/
def remediateWeights {m : ℕ} (hm : 0 < m) (ub w1 : Fin m → ℝ) : Fin m → ℝ :=
  if 1 < m ∧ (∃ j, w1 j < 0.05) then
    let blended : Fin m → ℝ := fun j => 0.5 * w1 j + 0.5 * ((1 : ℝ) / (m : ℝ))
    let wp := projectSimplexBounded blended ub 50
    if ∃ j, wp j < 0.05 then
      let wf : Fin m → ℝ := fun j => max (wp j) 0.05
      let excess := (∑ j, wf j) - 1.0
      let wr := if 0 < excess then reduceLoop hm 20 wf excess else wf
      fun j => wr j / (∑ k, wr k)
    else wp
  else w1

/-- The complete continuous-weight computation of
`_optimize_continuous_weights` on the selected sub-universe, from the raw
(inverse-covariance) weights. -/
def contWeights {m : ℕ} (hm : 0 < m) (ub raw : Fin m → ℝ) : Fin m → ℝ :=
  remediateWeights hm ub (projectSimplexBounded raw ub 50)

/-- `contWeights` sums to 1 within 1e-6 and stays in `[0, 1]`. -/
lemma contWeights_bounds {m : ℕ} (hm : 0 < m) (ub raw : Fin m → ℝ)
    (hub : ∀ j, 1e-10 ≤ ub j ∧ ub j ≤ 1) (hmR : (m : ℝ) ≤ 1e9) :
    |(∑ j, contWeights hm ub raw j) - 1| ≤ 1e-6 ∧
      ∀ j, 0 ≤ contWeights hm ub raw j ∧ contWeights hm ub raw j ≤ 1 := by
  have hw1 := projectSimplexBounded_bounds raw ub 50 hm hub hmR
  simp only [contWeights, remediateWeights]
  split_ifs with hA hB he
  · exact renorm_bounds hm _
      (fun j => reduceLoop_ge hm 20 _ _ (le_of_lt he) (fun k => le_max_right _ _) j)
  · exact renorm_bounds hm _ (fun j => le_max_right _ _)
  · exact projectSimplexBounded_bounds _ ub 50 hm hub hmR
  · exact hw1

/-- `np.linalg.inv`-based raw weights of `_optimize_continuous_weights`
(uniform fallback on a singular sub-covariance, ones-vector solve when all
inverse-Markowitz weights are non-positive). -/
def rawWeights {m : ℕ} (sub_mu : Fin m → ℝ) (sub_cov : Matrix (Fin m) (Fin m) ℝ) :
    Fin m → ℝ :=
  if IsUnit sub_cov.det then
    let r := sub_cov⁻¹.mulVec sub_mu
    if ∀ j, r j ≤ 0 then sub_cov⁻¹.mulVec (fun _ => 1) else r
  else fun _ => 1

lemma optimizeContinuousWeights_pos {n : ℕ} (assets : Fin n → Asset)
    (cov : Matrix (Fin n) (Fin n) ℝ) (selected : List (Fin n))
    (hm : 0 < selected.length) (w2 : Fin selected.length → ℝ)
    (hw2 : w2 = contWeights hm (fun j => (assets (selected.get j)).max_weight)
      (rawWeights (fun j => (assets (selected.get j)).expected_return)
        (Matrix.of fun j k => cov (selected.get j) (selected.get k)))) :
    optimizeContinuousWeights assets cov selected =
      (fun i => ∑ j, if selected.get j = i then w2 j else 0,
       ∑ j, w2 j * (assets (selected.get j)).expected_return,
       Real.sqrt (∑ j, w2 j * (∑ k, cov (selected.get j) (selected.get k) * w2 k))) := by
  subst hw2
  rw [optimizeContinuousWeights, dif_pos hm]
  rfl

lemma optimizeContinuousWeights_nil {n : ℕ} (assets : Fin n → Asset)
    (cov : Matrix (Fin n) (Fin n) ℝ) :
    optimizeContinuousWeights assets cov [] = (fun _ => 0, 0, 0) := by
  rw [optimizeContinuousWeights, dif_neg]
  simp

lemma solveFromSample_weights {n : ℕ} (assets : Fin n → Asset)
    (cov : Matrix (Fin n) (Fin n) ℝ) (bqm : BQM n) (sample : Fin n → Bool)
    (elapsed : ℝ) (sname : String) :
    (solveFromSample assets cov bqm sample elapsed sname).weights
      = (optimizeContinuousWeights assets cov
          ((List.finRange n).filter fun i => sample i)).1 := rfl

/-- Scattering the sub-universe weights back to full indices: each full
coordinate is either 0 or one sub-universe weight (the selection list has no
duplicates). -/
lemma fullWeights_char {n : ℕ} {selected : List (Fin n)} (hnd : selected.Nodup)
    (w2 : Fin selected.length → ℝ) (i : Fin n) :
    (∑ j, if selected.get j = i then w2 j else 0) = 0 ∨
      ∃ j, selected.get j = i ∧
        (∑ j', if selected.get j' = i then w2 j' else 0) = w2 j := by
  have hinj : Function.Injective selected.get :=
    List.nodup_iff_injective_get.mp hnd
  by_cases hex : ∃ j, selected.get j = i
  · obtain ⟨j₀, hj₀⟩ := hex
    right
    refine ⟨j₀, hj₀, ?_⟩
    rw [Finset.sum_eq_single j₀]
    · rw [if_pos hj₀]
    · intro b _ hb
      exact if_neg fun hbe => hb (hinj (hbe.trans hj₀.symm))
    · intro habs
      exact absurd (Finset.mem_univ j₀) habs
  · left
    exact Finset.sum_eq_zero fun j _ => if_neg fun hj => hex ⟨j, hj⟩

lemma fullWeights_sum {n : ℕ} (selected : List (Fin n)) (w2 : Fin selected.length → ℝ) :
    (∑ i, ∑ j, if selected.get j = i then w2 j else 0) = ∑ j, w2 j := by
  rw [Finset.sum_comm]
  refine Finset.sum_congr rfl fun j _ => ?_
  rw [Finset.sum_ite_eq]
  simp

/-- C2 (amended): on any solver run whose sample sets at least one bit, the
weights sum to 1 within 1e-6 and each weight lies in `[0, 1]` (NOT within
`max_weight + 1e-9`: the final renormalisation can push a weight above its
box bound when the selected bounds sum to less than 1); positive weights
only occur on selected bits, and an all-zero sample yields all-zero
weights.  Hypotheses: every `max_weight` lies in `[1e-10, 1]` and the
universe has at most 1e9 assets. -/
theorem c2_weights_amended {n : ℕ} (assets : Fin n → Asset)
    (cov : Matrix (Fin n) (Fin n) ℝ) (bqm : BQM n) (sample : Fin n → Bool)
    (elapsed : ℝ) (sname : String)
    (hub : ∀ i, 1e-10 ≤ (assets i).max_weight ∧ (assets i).max_weight ≤ 1)
    (hn : (n : ℝ) ≤ 1e9) :
    ((∃ i, sample i = true) →
      |(∑ i, (solveFromSample assets cov bqm sample elapsed sname).weights i) - 1| ≤ 1e-6 ∧
      ∀ i, 0 ≤ (solveFromSample assets cov bqm sample elapsed sname).weights i ∧
        (solveFromSample assets cov bqm sample elapsed sname).weights i ≤ 1) ∧
    (∀ i, (solveFromSample assets cov bqm sample elapsed sname).weights i ≠ 0 →
      sample i = true) ∧
    ((∀ i, sample i = false) →
      ∀ i, (solveFromSample assets cov bqm sample elapsed sname).weights i = 0) := by
  rw [solveFromSample_weights]
  have hnd : ((List.finRange n).filter fun i => sample i).Nodup :=
    (List.nodup_finRange n).filter _
  have hlen9 : ((((List.finRange n).filter fun i => sample i).length : ℕ) : ℝ) ≤ 1e9 := by
    refine le_trans ?_ hn
    have := List.length_filter_le (fun i => sample i) (List.finRange n)
    rw [List.length_finRange] at this
    exact_mod_cast this
  refine ⟨?_, ?_, ?_⟩
  · rintro ⟨i₀, hi₀⟩
    have hmem : i₀ ∈ (List.finRange n).filter fun i => sample i :=
      List.mem_filter.mpr ⟨List.mem_finRange i₀, hi₀⟩
    have hne : (List.finRange n).filter (fun i => sample i) ≠ [] :=
      List.ne_nil_of_mem hmem
    have hm : 0 < ((List.finRange n).filter fun i => sample i).length :=
      List.length_pos.mpr hne
    have hbounds := contWeights_bounds hm
      (fun j => (assets (((List.finRange n).filter fun i => sample i).get j)).max_weight)
      (rawWeights
        (fun j => (assets (((List.finRange n).filter fun i => sample i).get j)).expected_return)
        (Matrix.of fun j k => cov (((List.finRange n).filter fun i => sample i).get j)
          (((List.finRange n).filter fun i => sample i).get k)))
      (fun j => hub _) hlen9
    rw [optimizeContinuousWeights_pos assets cov _ hm _ rfl]
    dsimp only
    constructor
    · rw [fullWeights_sum]
      exact hbounds.1
    · intro i
      rcases fullWeights_char hnd _ i with hz | ⟨j, -, hj⟩
      · rw [hz]
        norm_num
      · rw [hj]
        exact ⟨(hbounds.2 j).1, (hbounds.2 j).2⟩
  · intro i hne0
    by_cases hnil : (List.finRange n).filter (fun i => sample i) = []
    · rw [hnil, optimizeContinuousWeights_nil] at hne0
      exact absurd rfl hne0
    · have hm : 0 < ((List.finRange n).filter fun i => sample i).length :=
        List.length_pos.mpr hnil
      rw [optimizeContinuousWeights_pos assets cov _ hm _ rfl] at hne0
      dsimp only at hne0
      rcases fullWeights_char hnd
        (contWeights hm
          (fun j => (assets (((List.finRange n).filter fun i => sample i).get j)).max_weight)
          (rawWeights
            (fun j =>
              (assets (((List.finRange n).filter fun i => sample i).get j)).expected_return)
            (Matrix.of fun j k => cov (((List.finRange n).filter fun i => sample i).get j)
              (((List.finRange n).filter fun i => sample i).get k)))) i with hz | ⟨j, hj, -⟩
      · exact absurd hz hne0
      · have : i ∈ (List.finRange n).filter fun i => sample i := by
          rw [← hj]
          exact List.get_mem _ j.1 j.2
        exact (List.mem_filter.mp this).2
  · intro hall i
    have hnil : (List.finRange n).filter (fun i => sample i) = [] := by
      rw [List.filter_eq_nil]
      intro a _
      simp [hall a]
    rw [hnil, optimizeContinuousWeights_nil]

/-- Concrete inputs for the `c2` witness. -/
def c2wAssets : Fin 1 → Asset := fun _ => ⟨"SUI", 0.2, 0, 0.4⟩

def c2wBqm : BQM 1 := ⟨fun _ => 0, [], 0⟩

/-- Witness for `c2_weights_amended` at a one-asset universe. -/
theorem c2_weights_amended_witness :
    (∀ i : Fin 1, 1e-10 ≤ (c2wAssets i).max_weight ∧ (c2wAssets i).max_weight ≤ 1) ∧
    ((1 : ℕ) : ℝ) ≤ 1e9 ∧
    (∀ i, (solveFromSample c2wAssets 0 c2wBqm (fun _ => true) 0 "ExactSolver").weights i ≠ 0 →
      (fun _ : Fin 1 => true) i = true) :=
  ⟨fun i => by norm_num [c2wAssets], by norm_num,
    (c2_weights_amended c2wAssets 0 c2wBqm (fun _ => true) 0 "ExactSolver"
      (fun i => by norm_num [c2wAssets]) (by norm_num)).2.1⟩

lemma projLoop_fix {m : ℕ} {ub w : Fin m → ℝ} (h : projStep ub w = Sum.inr w) :
    ∀ fuel, projLoop ub fuel w = w := by
  intro fuel
  induction fuel with
  | zero => simp only [projLoop]
  | succ k ih =>
      simp only [projLoop, h]
      exact ih

lemma rawWeights_zero {m : ℕ} (hm : 0 < m) (sub_mu : Fin m → ℝ) :
    rawWeights sub_mu (0 : Matrix (Fin m) (Fin m) ℝ) = fun _ => 1 := by
  have h : ¬ IsUnit (0 : Matrix (Fin m) (Fin m) ℝ).det := by
    rw [Matrix.det_zero ⟨⟨0, hm⟩⟩]
    exact not_isUnit_zero
  simp only [rawWeights]
  rw [if_neg h]

lemma c2_projInit : projInit (fun _ : Fin 2 => (1 : ℝ)) = fun _ => (0.5 : ℝ) := by
  funext i
  simp only [projInit]
  split_ifs with h
  · norm_num [Fin.sum_univ_two]
  · exfalso
    apply h
    norm_num [Fin.sum_univ_two]

lemma c2_clip :
    clipv (fun _ : Fin 2 => (0.4 : ℝ)) (fun _ => (0.5 : ℝ)) = fun _ => (0.4 : ℝ) := by
  funext i
  simp only [clipv]
  norm_num

lemma c2_sum04 : (∑ _x : Fin 2, (0.4 : ℝ)) = 0.8 := by
  rw [Fin.sum_univ_two]
  norm_num

lemma c2_abs : |(0.8 : ℝ) - 1.0| = 0.2 := by
  rw [abs_of_nonpos (by norm_num)]
  norm_num

/-- With both bounds at 0.4 on two coordinates, the vector (0.5, 0.5) is a
fixpoint of the projection iteration: the clip loses 0.2 of mass and the
redistribution puts 0.1 back on each coordinate. -/
lemma c2_step_fix :
    projStep (fun _ : Fin 2 => (0.4 : ℝ)) (fun _ => (0.5 : ℝ))
      = Sum.inr (fun _ => (0.5 : ℝ)) := by
  have hfilt : (Finset.univ.filter fun _ : Fin 2 => (1e-10 : ℝ) < (0.4 : ℝ))
      = Finset.univ := Finset.filter_true_of_mem (fun _ _ => by norm_num)
  have hfree : (if (0 : ℝ) < 0.8 - 1.0 then fun i : Fin 2 => (0.4 : ℝ) < 0.4 - 1e-10
      else fun i : Fin 2 => (1e-10 : ℝ) < 0.4) = fun _ : Fin 2 => (1e-10 : ℝ) < (0.4 : ℝ) :=
    if_neg (by norm_num)
  simp only [projStep, c2_clip, c2_sum04, c2_abs]
  rw [if_neg (by norm_num), hfree, hfilt, Finset.card_univ, Fintype.card_fin,
    if_neg (by norm_num)]
  congr 1
  funext i
  norm_num

/-- The full projection of the uniform raw vector onto two 0.4-bounds: the
final renormalisation divides the clipped (0.4, 0.4) by 0.8, yielding
(0.5, 0.5) — above both bounds. -/
lemma c2_proj :
    projectSimplexBounded (fun _ : Fin 2 => (1 : ℝ)) (fun _ => (0.4 : ℝ)) 50
      = fun _ => (0.5 : ℝ) := by
  rw [projectSimplexBounded_eq, c2_projInit, projLoop_fix c2_step_fix, c2_clip]
  simp only [projFinal, c2_sum04, c2_abs]
  rw [if_pos (by norm_num)]
  funext i
  norm_num

/-- Two identical assets with `max_weight = 0.4` and a singular (zero)
covariance. -/
def c2cAssets : Fin 2 → Asset := fun _ => ⟨"SUI", 0.5, 0, 0.4⟩

lemma c2_hm2 : 0 < ([0, 1] : List (Fin 2)).length := by decide

lemma c2_w2 :
    contWeights c2_hm2
      (fun j => (c2cAssets (([0, 1] : List (Fin 2)).get j)).max_weight)
      (rawWeights (fun j => (c2cAssets (([0, 1] : List (Fin 2)).get j)).expected_return)
        (Matrix.of fun j k => (0 : Matrix (Fin 2) (Fin 2) ℝ)
          (([0, 1] : List (Fin 2)).get j) (([0, 1] : List (Fin 2)).get k)))
      = fun _ => (0.5 : ℝ) := by
  show @contWeights 2 (by decide) (fun _ : Fin 2 => (0.4 : ℝ))
      (@rawWeights 2 (fun _ : Fin 2 => (0.5 : ℝ)) (0 : Matrix (Fin 2) (Fin 2) ℝ))
      = fun _ => (0.5 : ℝ)
  rw [rawWeights_zero (by decide)]
  simp only [contWeights, c2_proj, remediateWeights]
  rw [if_neg]
  rintro ⟨-, j, hj⟩
  norm_num at hj

/-- C2 (counterexample): on a 2-asset universe with `max_weight = 0.4` on
both assets and a singular covariance, selecting both assets produces
weight 0.5 on asset 0 — strictly above `max_weight + 1e-9`.  The spec's
per-asset bound `weights[s] ≤ max_weight[s] + 1e-9` fails when the selected
bounds sum to less than 1. -/
theorem c2_weights_counterexample :
    (c2cAssets 0).max_weight + 1e-9 <
      (optimizeContinuousWeights c2cAssets (0 : Matrix (Fin 2) (Fin 2) ℝ) [0, 1]).1 0 := by
  rw [optimizeContinuousWeights_pos c2cAssets 0 [0, 1] c2_hm2 _ c2_w2.symm]
  show (0.4 : ℝ) + 1e-9 <
    ∑ j : Fin 2, if ([0, 1] : List (Fin 2)).get j = 0 then (0.5 : ℝ) else 0
  rw [Fin.sum_univ_two]
  have hg0 : ([0, 1] : List (Fin 2)).get (0 : Fin 2) = 0 := rfl
  have hg1 : ([0, 1] : List (Fin 2)).get (1 : Fin 2) = 1 := rfl
  rw [hg0, hg1, if_pos rfl, if_neg (show (1 : Fin 2) ≠ 0 from by decide)]
  norm_num

/-! ### C6 — the QUBO build -/

/-- C6 (amended): the builder emits exactly the spec's linear coefficients
and offset, and a pair `(i, j)` with value `q` is present iff `i < j`,
`q = 2·λ_risk·Σ_ij + 2·λ_budget` and `1e-12 < |q|` — i.e. the pair is
omitted when `|q| ≤ 1e-12`, not when `|q| < 1e-12` as the spec says (the
two differ exactly at `|q| = 1e-12`); the build is deterministic and
depends on the assets only through their expected returns. -/
theorem c6_build_amended {n : ℕ} (assets : Fin n → Asset)
    (cov : Matrix (Fin n) (Fin n) ℝ) (cfg : QUBOConfig) :
    (∀ i, (buildBQM n assets cov cfg).linear i =
      0 - cfg.lambda_return * (assets i).expected_return + cfg.lambda_risk * cov i i
        + cfg.lambda_budget * (1.0 - 2.0 * (cfg.target_assets : ℝ)))
    ∧ (buildBQM n assets cov cfg).offset
        = 0.0 + cfg.lambda_budget * (cfg.target_assets : ℝ) * (cfg.target_assets : ℝ)
    ∧ (∀ (i j : Fin n) (q : ℝ), ((i, j), q) ∈ (buildBQM n assets cov cfg).quadratic ↔
        (i < j ∧ q = 0.0 + cfg.lambda_risk * 2.0 * cov i j + 2.0 * cfg.lambda_budget
          ∧ 1e-12 < |q|))
    ∧ (∀ assets' : Fin n → Asset,
        (∀ i, (assets' i).expected_return = (assets i).expected_return) →
        buildBQM n assets' cov cfg = buildBQM n assets cov cfg) := by
  refine ⟨fun i => rfl, rfl, ?_, ?_⟩
  · intro i j q
    simp only [buildBQM, List.mem_flatMap, List.mem_filterMap, List.mem_filter,
      List.mem_finRange, true_and, decide_eq_true_eq]
    constructor
    · rintro ⟨a, b, hab, hsome⟩
      split_ifs at hsome with habs
      rcases hsome with ⟨⟩
      exact ⟨hab, rfl, habs⟩
    · rintro ⟨hij, hq, habs⟩
      refine ⟨i, j, hij, ?_⟩
      rw [if_pos (by rw [← hq]; exact habs)]
      rw [hq]
  · intro assets' h
    simp only [buildBQM]
    congr 1
    funext i
    rw [h i]

/-- Concrete inputs for the C6 boundary counterexample and witness. -/
def c6cAssets : Fin 2 → Asset := fun _ => ⟨"SUI", 0.3, 0, 0.4⟩

def c6cCfg : QUBOConfig := ⟨1.0, 0, 5e-13, 3, 200, false⟩

def c6wAssets2 : Fin 2 → Asset := fun _ => ⟨"BTC", 0.3, 0.1, 0.2⟩

/-- C6 (counterexample): with `λ_risk = 0`, `λ_budget = 5e-13` and zero
covariance, the off-diagonal value is `q = 1e-12` exactly; the spec's rule
(omit when `|q| < 1e-12`) would keep the pair, but the built BQM has an
empty quadratic dict because the code keeps a pair only when
`|q| > 1e-12`. -/
theorem c6_build_counterexample :
    ¬ (|0.0 + c6cCfg.lambda_risk * 2.0 * (0 : Matrix (Fin 2) (Fin 2) ℝ) 0 1
        + 2.0 * c6cCfg.lambda_budget| < 1e-12) ∧
    (buildBQM 2 c6cAssets (0 : Matrix (Fin 2) (Fin 2) ℝ) c6cCfg).quadratic = [] := by
  have hq : (0.0 : ℝ) + c6cCfg.lambda_risk * 2.0 * (0 : Matrix (Fin 2) (Fin 2) ℝ) 0 1
      + 2.0 * c6cCfg.lambda_budget = 1e-12 := by
    simp only [c6cCfg, Matrix.zero_apply]
    norm_num
  have habs : |(1e-12 : ℝ)| = 1e-12 := abs_of_nonneg (by norm_num)
  constructor
  · rw [hq, habs]
    norm_num
  · have hfr : List.finRange 2 = [0, 1] := by decide
    simp only [buildBQM, hfr]
    have h0 : (([0, 1] : List (Fin 2)).filter fun j => decide ((0 : Fin 2) < j)) = [1] := by
      decide
    have h1 : (([0, 1] : List (Fin 2)).filter fun j => decide ((1 : Fin 2) < j)) = [] := by
      decide
    simp only [List.flatMap_cons, List.flatMap_nil, h0, h1, List.filterMap_nil,
      List.append_nil]
    simp only [List.filterMap_cons, List.filterMap_nil]
    rw [if_neg]
    rw [hq, habs]
    norm_num

/-- Witness for `c6_build_amended`: two two-asset universes agreeing on
expected returns but differing in symbols and bounds build identical
BQMs. -/
theorem c6_build_amended_witness :
    (∀ i : Fin 2, (c6wAssets2 i).expected_return = (c6cAssets i).expected_return) ∧
    buildBQM 2 c6wAssets2 (0 : Matrix (Fin 2) (Fin 2) ℝ) c6cCfg
      = buildBQM 2 c6cAssets (0 : Matrix (Fin 2) (Fin 2) ℝ) c6cCfg :=
  ⟨fun i => rfl,
    (c6_build_amended c6cAssets (0 : Matrix (Fin 2) (Fin 2) ℝ) c6cCfg).2.2.2 c6wAssets2
      (fun i => rfl)⟩

/-! ### C5 — the 5-asset mock pipeline, traced exactly -/

/-- The QUBO config the execution agent builds at `risk_tolerance = 0.5` on
five assets: `K = max(2, min(5, int(2.5)+1)) = 3`, `λ_risk = max(0.1, 0.5)`. -/
def c5cfg : QUBOConfig := ⟨1.0, 0.5, 2.0, 3, 200, false⟩

/-- The winning sample: SUI, SOL, AVAX. -/
def c5x : Fin 5 → Bool := ![true, false, false, true, true]

/-- The residual of the projection loop at its break point
(`a/2·3⁻¹⁷` with `a = 11/1585`). -/
def c5u : ℝ := 11 / (3170 * 3 ^ 17)

def c5w3 : ℝ := 93 / 317 + 11 / 3170 - c5u

def c5w4 : ℝ := 95 / 317 + 11 / 3170 - c5u

/-- The projection-loop iterate with residual `u`. -/
def c5vec (u : ℝ) : Fin 3 → ℝ :=
  ![2 / 5 + 2 * u, 93 / 317 + 11 / 3170 - u, 95 / 317 + 11 / 3170 - u]

/-- The sub-universe weights the loop converges to. -/
def c5final : Fin 3 → ℝ := ![2 / 5, c5w3, c5w4]

/-- The full 5-asset weight vector. -/
def c5weights : Fin 5 → ℝ := ![2 / 5, 0, 0, c5w3, c5w4]

lemma market_adjust_zero {n : ℕ} (assets : Fin n → Asset) :
    market_adjust_returns assets 0.5 (fun _ => 0) = assets := by
  funext i
  simp only [market_adjust_returns]
  have h : (assets i).expected_return + ((0.5 - 0.5) * 0.05 + 0)
      = (assets i).expected_return := by ring
  rw [h]

lemma c5_exec (elapsed : ℝ) :
    execution_agent_run make_test_universe_assets make_test_universe_cov 0.5 elapsed
      = (solveExact make_test_universe_assets make_test_universe_cov c5cfg elapsed,
         estimate_rebalance_slippage make_test_universe_assets
           (solveExact make_test_universe_assets make_test_universe_cov c5cfg
             elapsed).allocation
           (solveExact make_test_universe_assets make_test_universe_cov c5cfg
             elapsed).weights 50000) := by
  have hfloor : ⌊((5 : ℕ) : ℝ) * 0.5⌋₊ = 2 := by
    rw [Nat.floor_eq_iff (by positivity)]
    constructor <;> norm_num
  have htarget : max 2 (min 5 (⌊((5 : ℕ) : ℝ) * 0.5⌋₊ + 1)) = 3 := by
    rw [hfloor]
    decide
  have hlam : max 0.1 (1.0 - 0.5) = (0.5 : ℝ) := by
    rw [max_eq_right (by norm_num)]
    norm_num
  simp only [execution_agent_run, htarget, hlam]
  rw [if_pos (by norm_num : (0 : ℕ) < 5)]
  rfl

/-- The quadratic coefficient list the mock build produces:
`J_ij = Σ_ij + 4` for the ten pairs `i < j`. -/
def c5quad : List ((Fin 5 × Fin 5) × ℝ) :=
  [((0, 1), 4.048), ((0, 2), 4.030), ((0, 3), 4.070), ((0, 4), 4.055),
   ((1, 2), 4.045), ((1, 3), 4.040), ((1, 4), 4.035),
   ((2, 3), 4.025), ((2, 4), 4.020), ((3, 4), 4.060)]

lemma filterMap_keep {n : ℕ} (i : Fin n) (l : List (Fin n)) (q : Fin n → ℝ)
    (hq : ∀ j ∈ l, (1e-12 : ℝ) < |q j|) :
    (l.filterMap fun j => if 1e-12 < |q j| then some ((i, j), q j) else none)
      = l.map fun j => ((i, j), q j) := by
  induction l with
  | nil => rfl
  | cons a t ih =>
      have ha : (if 1e-12 < |q a| then some ((i, a), q a) else none) = some ((i, a), q a) :=
        if_pos (hq a (List.mem_cons_self a t))
      simp only [List.filterMap_cons, ha, List.map_cons]
      rw [ih fun j hj => hq j (List.mem_cons_of_mem a hj)]

lemma c5_quad :
    (buildBQM 5 make_test_universe_assets make_test_universe_cov c5cfg).quadratic
      = c5quad := by
  have hfr : List.finRange 5 = [0, 1, 2, 3, 4] := by decide
  have hf0 : (([0, 1, 2, 3, 4] : List (Fin 5)).filter fun j => decide ((0 : Fin 5) < j))
      = [1, 2, 3, 4] := by decide
  have hf1 : (([0, 1, 2, 3, 4] : List (Fin 5)).filter fun j => decide ((1 : Fin 5) < j))
      = [2, 3, 4] := by decide
  have hf2 : (([0, 1, 2, 3, 4] : List (Fin 5)).filter fun j => decide ((2 : Fin 5) < j))
      = [3, 4] := by decide
  have hf3 : (([0, 1, 2, 3, 4] : List (Fin 5)).filter fun j => decide ((3 : Fin 5) < j))
      = [4] := by decide
  have hf4 : (([0, 1, 2, 3, 4] : List (Fin 5)).filter fun j => decide ((4 : Fin 5) < j))
      = [] := by decide
  have hq0 : ∀ j ∈ ([1, 2, 3, 4] : List (Fin 5)),
      (1e-12 : ℝ) < |0.0 + 0.5 * 2.0 * make_test_universe_cov 0 j + 2.0 * 2.0| := by
    intro j hj
    fin_cases hj <;> refine lt_of_lt_of_le ?_ (le_abs_self _) <;>
      norm_num [show make_test_universe_cov 0 1 = 0.048 from rfl,
        show make_test_universe_cov 0 2 = 0.030 from rfl,
        show make_test_universe_cov 0 3 = 0.070 from rfl,
        show make_test_universe_cov 0 4 = 0.055 from rfl]
  have hq1 : ∀ j ∈ ([2, 3, 4] : List (Fin 5)),
      (1e-12 : ℝ) < |0.0 + 0.5 * 2.0 * make_test_universe_cov 1 j + 2.0 * 2.0| := by
    intro j hj
    fin_cases hj <;> refine lt_of_lt_of_le ?_ (le_abs_self _) <;>
      norm_num [show make_test_universe_cov 1 2 = 0.045 from rfl,
        show make_test_universe_cov 1 3 = 0.040 from rfl,
        show make_test_universe_cov 1 4 = 0.035 from rfl]
  have hq2 : ∀ j ∈ ([3, 4] : List (Fin 5)),
      (1e-12 : ℝ) < |0.0 + 0.5 * 2.0 * make_test_universe_cov 2 j + 2.0 * 2.0| := by
    intro j hj
    fin_cases hj <;> refine lt_of_lt_of_le ?_ (le_abs_self _) <;>
      norm_num [show make_test_universe_cov 2 3 = 0.025 from rfl,
        show make_test_universe_cov 2 4 = 0.020 from rfl]
  have hq3 : ∀ j ∈ ([4] : List (Fin 5)),
      (1e-12 : ℝ) < |0.0 + 0.5 * 2.0 * make_test_universe_cov 3 j + 2.0 * 2.0| := by
    intro j hj
    fin_cases hj <;> refine lt_of_lt_of_le ?_ (le_abs_self _) <;>
      norm_num [show make_test_universe_cov 3 4 = 0.060 from rfl]
  simp only [buildBQM, c5cfg, hfr, List.flatMap_cons, List.flatMap_nil, hf0, hf1, hf2,
    hf3, hf4]
  rw [filterMap_keep 0 [1, 2, 3, 4] _ hq0, filterMap_keep 1 [2, 3, 4] _ hq1,
    filterMap_keep 2 [3, 4] _ hq2, filterMap_keep 3 [4] _ hq3, List.filterMap_nil]
  simp only [List.map_cons, List.map_nil, List.cons_append, List.nil_append,
    List.append_nil, c5quad]
  norm_num [show make_test_universe_cov 0 1 = 0.048 from rfl,
    show make_test_universe_cov 0 2 = 0.030 from rfl,
    show make_test_universe_cov 0 3 = 0.070 from rfl,
    show make_test_universe_cov 0 4 = 0.055 from rfl,
    show make_test_universe_cov 1 2 = 0.045 from rfl,
    show make_test_universe_cov 1 3 = 0.040 from rfl,
    show make_test_universe_cov 1 4 = 0.035 from rfl,
    show make_test_universe_cov 2 3 = 0.025 from rfl,
    show make_test_universe_cov 2 4 = 0.020 from rfl,
    show make_test_universe_cov 3 4 = 0.060 from rfl]

/-- Closed form of the energy of any sample on the mock build. -/
lemma c5_energy (x : Fin 5 → Bool) :
    bqmEnergy (buildBQM 5 make_test_universe_assets make_test_universe_cov c5cfg) x
      = (if x 0 then (-10.27 : ℝ) else 0) + (if x 1 then (-10.155 : ℝ) else 0)
        + (if x 2 then (-10.125 : ℝ) else 0) + (if x 3 then (-10.23 : ℝ) else 0)
        + (if x 4 then (-10.195 : ℝ) else 0)
        + ((if x 0 && x 1 then (4.048 : ℝ) else 0) + (if x 0 && x 2 then (4.030 : ℝ) else 0)
          + (if x 0 && x 3 then (4.070 : ℝ) else 0) + (if x 0 && x 4 then (4.055 : ℝ) else 0)
          + (if x 1 && x 2 then (4.045 : ℝ) else 0) + (if x 1 && x 3 then (4.040 : ℝ) else 0)
          + (if x 1 && x 4 then (4.035 : ℝ) else 0) + (if x 2 && x 3 then (4.025 : ℝ) else 0)
          + (if x 2 && x 4 then (4.020 : ℝ) else 0) + (if x 3 && x 4 then (4.060 : ℝ) else 0))
        + 18 := by
  simp only [bqmEnergy, c5_quad, c5quad, List.map_cons, List.map_nil, List.sum_cons,
    List.sum_nil]
  rw [Fin.sum_univ_five]
  simp only [buildBQM, c5cfg]
  norm_num [show (make_test_universe_assets 0).expected_return = 0.35 from rfl,
    show (make_test_universe_assets 1).expected_return = 0.20 from rfl,
    show (make_test_universe_assets 2).expected_return = 0.15 from rfl,
    show (make_test_universe_assets 3).expected_return = 0.30 from rfl,
    show (make_test_universe_assets 4).expected_return = 0.25 from rfl,
    show make_test_universe_cov 0 0 = 0.160 from rfl,
    show make_test_universe_cov 1 1 = 0.090 from rfl,
    show make_test_universe_cov 2 2 = 0.050 from rfl,
    show make_test_universe_cov 3 3 = 0.140 from rfl,
    show make_test_universe_cov 4 4 = 0.110 from rfl]
  ring

lemma fin5_fun_ext {α : Type} {f g : Fin 5 → α} (h0 : f 0 = g 0) (h1 : f 1 = g 1)
    (h2 : f 2 = g 2) (h3 : f 3 = g 3) (h4 : f 4 = g 4) : f = g := by
  funext i
  fin_cases i
  exacts [h0, h1, h2, h3, h4]

/-- The exact solver's best sample on the mock build is {SUI, SOL, AVAX}
(energy −0.51, uniquely minimal — the runner-up {SUI, BTC, SOL} has
energy −0.50). -/
lemma c5_best :
    exactBest (buildBQM 5 make_test_universe_assets make_test_universe_cov c5cfg)
      = c5x := by
  apply exactBest_eq_of_strict
  intro x hne
  have hx : bqmEnergy (buildBQM 5 make_test_universe_assets make_test_universe_cov c5cfg)
      c5x = -0.51 := by
    rw [c5_energy]
    norm_num [show c5x 0 = true from rfl, show c5x 1 = false from rfl,
      show c5x 2 = false from rfl, show c5x 3 = true from rfl,
      show c5x 4 = true from rfl]
  rw [hx, c5_energy x]
  rcases Bool.eq_false_or_eq_true (x 0) with h0 | h0 <;>
    rcases Bool.eq_false_or_eq_true (x 1) with h1 | h1 <;>
    rcases Bool.eq_false_or_eq_true (x 2) with h2 | h2 <;>
    rcases Bool.eq_false_or_eq_true (x 3) with h3 | h3 <;>
    rcases Bool.eq_false_or_eq_true (x 4) with h4 | h4 <;>
    first
      | exact absurd (fin5_fun_ext h0 h1 h2 h3 h4) hne
      | (simp only [h0, h1, h2, h3, h4]; norm_num)

/-- The {SUI, SOL, AVAX} sub-covariance. -/
def c5A : Matrix (Fin 3) (Fin 3) ℝ :=
  !![0.160, 0.070, 0.055; 0.070, 0.140, 0.060; 0.055, 0.060, 0.110]

/-- The inverse-covariance (Markowitz) raw weights on the sub-universe. -/
def c5raw : Fin 3 → ℝ := ![258 / 185, 186 / 185, 190 / 185]

lemma c5_sel : ((List.finRange 5).filter fun i => c5x i) = [0, 3, 4] := by decide

lemma fin3_fun_ext {α : Type} {f g : Fin 3 → α} (h0 : f 0 = g 0) (h1 : f 1 = g 1)
    (h2 : f 2 = g 2) : f = g := by
  funext i
  fin_cases i
  exacts [h0, h1, h2]

lemma fin3_forall {P : Fin 3 → Prop} (h0 : P 0) (h1 : P 1) (h2 : P 2) : ∀ i, P i := by
  intro i
  fin_cases i
  exacts [h0, h1, h2]

lemma c5_detA : IsUnit c5A.det := by
  have h : c5A.det = 0.0013875 := by
    rw [Matrix.det_fin_three]
    norm_num [show c5A 0 0 = 0.160 from rfl, show c5A 0 1 = 0.070 from rfl,
      show c5A 0 2 = 0.055 from rfl, show c5A 1 0 = 0.070 from rfl,
      show c5A 1 1 = 0.140 from rfl, show c5A 1 2 = 0.060 from rfl,
      show c5A 2 0 = 0.055 from rfl, show c5A 2 1 = 0.060 from rfl,
      show c5A 2 2 = 0.110 from rfl]
  rw [h]
  exact isUnit_iff_ne_zero.mpr (by norm_num)

lemma c5_mulVec : c5A.mulVec c5raw = ![0.35, 0.30, 0.25] := by
  refine fin3_fun_ext ?_ ?_ ?_ <;>
    simp only [Matrix.mulVec, Matrix.dotProduct, Fin.sum_univ_three] <;>
    norm_num [show c5A 0 0 = 0.160 from rfl, show c5A 0 1 = 0.070 from rfl,
      show c5A 0 2 = 0.055 from rfl, show c5A 1 0 = 0.070 from rfl,
      show c5A 1 1 = 0.140 from rfl, show c5A 1 2 = 0.060 from rfl,
      show c5A 2 0 = 0.055 from rfl, show c5A 2 1 = 0.060 from rfl,
      show c5A 2 2 = 0.110 from rfl, show c5raw 0 = 258 / 185 from rfl,
      show c5raw 1 = 186 / 185 from rfl, show c5raw 2 = 190 / 185 from rfl,
      show (![0.35, 0.30, 0.25] : Fin 3 → ℝ) 0 = 0.35 from rfl,
      show (![0.35, 0.30, 0.25] : Fin 3 → ℝ) 1 = 0.30 from rfl,
      show (![0.35, 0.30, 0.25] : Fin 3 → ℝ) 2 = 0.25 from rfl]

lemma c5_inv : c5A⁻¹.mulVec ![0.35, 0.30, 0.25] = c5raw := by
  calc c5A⁻¹.mulVec ![0.35, 0.30, 0.25] = c5A⁻¹.mulVec (c5A.mulVec c5raw) := by
        rw [c5_mulVec]
  _ = (c5A⁻¹ * c5A).mulVec c5raw := by rw [Matrix.mulVec_mulVec]
  _ = c5raw := by rw [Matrix.nonsing_inv_mul c5A c5_detA, Matrix.one_mulVec]

lemma c5_rawWeights : rawWeights ![0.35, 0.30, 0.25] c5A = c5raw := by
  simp only [rawWeights]
  rw [if_pos c5_detA, c5_inv, if_neg]
  intro h
  have h0 := h 0
  rw [show c5raw 0 = 258 / 185 from rfl] at h0
  norm_num at h0

lemma c5_projInit : projInit c5raw = c5vec (11 / (3170 * 3 ^ 0)) := by
  have hsum : (∑ i : Fin 3, max (c5raw i) 0) = 634 / 185 := by
    rw [Fin.sum_univ_three]
    rw [show c5raw 0 = 258 / 185 from rfl, show c5raw 1 = 186 / 185 from rfl,
      show c5raw 2 = 190 / 185 from rfl]
    rw [max_eq_left (by norm_num), max_eq_left (by norm_num), max_eq_left (by norm_num)]
    norm_num
  simp only [projInit]
  rw [hsum, if_pos (by norm_num)]
  refine fin3_fun_ext ?_ ?_ ?_
  · show max (c5raw 0) 0 / (634 / 185) = c5vec (11 / (3170 * 3 ^ 0)) 0
    rw [show c5raw 0 = 258 / 185 from rfl, max_eq_left (by norm_num),
      show c5vec (11 / (3170 * 3 ^ 0)) 0 = 2 / 5 + 2 * (11 / (3170 * 3 ^ 0)) from rfl]
    norm_num
  · show max (c5raw 1) 0 / (634 / 185) = c5vec (11 / (3170 * 3 ^ 0)) 1
    rw [show c5raw 1 = 186 / 185 from rfl, max_eq_left (by norm_num),
      show c5vec (11 / (3170 * 3 ^ 0)) 1
        = 93 / 317 + 11 / 3170 - 11 / (3170 * 3 ^ 0) from rfl]
    norm_num
  · show max (c5raw 2) 0 / (634 / 185) = c5vec (11 / (3170 * 3 ^ 0)) 2
    rw [show c5raw 2 = 190 / 185 from rfl, max_eq_left (by norm_num),
      show c5vec (11 / (3170 * 3 ^ 0)) 2
        = 95 / 317 + 11 / 3170 - 11 / (3170 * 3 ^ 0) from rfl]
    norm_num

lemma projLoop_succ_inr {m : ℕ} {ub w w' : Fin m → ℝ} (h : projStep ub w = Sum.inr w')
    (k : ℕ) : projLoop ub (k + 1) w = projLoop ub k w' := by
  simp only [projLoop, h]

lemma projLoop_succ_inl {m : ℕ} {ub w out : Fin m → ℝ} (h : projStep ub w = Sum.inl out)
    (k : ℕ) : projLoop ub (k + 1) w = out := by
  simp only [projLoop, h]

lemma c5_clip_vec (u : ℝ) (hu0 : 0 ≤ u) (hu2 : u ≤ 11 / 3170) :
    clipv (fun _ : Fin 3 => (0.4 : ℝ)) (c5vec u)
      = ![0.4, 93 / 317 + 11 / 3170 - u, 95 / 317 + 11 / 3170 - u] := by
  refine fin3_fun_ext ?_ ?_ ?_
  · show min (max (c5vec u 0) 0) 0.4 = 0.4
    rw [show c5vec u 0 = 2 / 5 + 2 * u from rfl, max_eq_left (by linarith),
      min_eq_right (by linarith)]
  · show min (max (c5vec u 1) 0) 0.4 = 93 / 317 + 11 / 3170 - u
    rw [show c5vec u 1 = 93 / 317 + 11 / 3170 - u from rfl,
      max_eq_left (by linarith), min_eq_left (by linarith)]
  · show min (max (c5vec u 2) 0) 0.4 = 95 / 317 + 11 / 3170 - u
    rw [show c5vec u 2 = 95 / 317 + 11 / 3170 - u from rfl,
      max_eq_left (by linarith), min_eq_left (by linarith)]

lemma c5_sum_clip (u : ℝ) :
    (∑ i : Fin 3, (![0.4, 93 / 317 + 11 / 3170 - u, 95 / 317 + 11 / 3170 - u]
      : Fin 3 → ℝ) i) = 1 - 2 * u := by
  rw [Fin.sum_univ_three]
  rw [show (![0.4, 93 / 317 + 11 / 3170 - u, 95 / 317 + 11 / 3170 - u]
      : Fin 3 → ℝ) 0 = 0.4 from rfl,
    show (![0.4, 93 / 317 + 11 / 3170 - u, 95 / 317 + 11 / 3170 - u]
      : Fin 3 → ℝ) 1 = 93 / 317 + 11 / 3170 - u from rfl,
    show (![0.4, 93 / 317 + 11 / 3170 - u, 95 / 317 + 11 / 3170 - u]
      : Fin 3 → ℝ) 2 = 95 / 317 + 11 / 3170 - u from rfl]
  norm_num
  ring

/-- One continuing iteration of the projection loop on the mock data:
the clip loses `2u` of mass on the first coordinate and the redistribution
puts `2u/3` back on each coordinate, shrinking the residual to `u/3`. -/
lemma c5_step_u (u : ℝ) (hu1 : 5e-11 ≤ u) (hu2 : u ≤ 11 / 3170) :
    projStep (fun _ : Fin 3 => (0.4 : ℝ)) (c5vec u) = Sum.inr (c5vec (u / 3)) := by
  have hu0 : (0 : ℝ) ≤ u := le_trans (by norm_num) hu1
  have hc := c5_clip_vec u hu0 hu2
  have hs := c5_sum_clip u
  have habs : |1 - 2 * u - 1.0| = 2 * u := by
    rw [show (1 - 2 * u - 1.0 : ℝ) = -(2 * u) by ring, abs_neg,
      abs_of_nonneg (by linarith)]
  have hfilt : (Finset.univ.filter fun i : Fin 3 =>
      (1e-10 : ℝ) < (![0.4, 93 / 317 + 11 / 3170 - u, 95 / 317 + 11 / 3170 - u]
        : Fin 3 → ℝ) i) = Finset.univ := by
    refine Finset.filter_true_of_mem (fin3_forall ?_ ?_ ?_)
    · intro _
      show (1e-10 : ℝ) < 0.4
      norm_num
    · intro _
      show (1e-10 : ℝ) < 93 / 317 + 11 / 3170 - u
      linarith
    · intro _
      show (1e-10 : ℝ) < 95 / 317 + 11 / 3170 - u
      linarith
  have hnb : ¬ (2 * u < (1e-10 : ℝ)) := by linarith
  have hnp : ¬ ((0 : ℝ) < 1 - 2 * u - 1.0) := by linarith
  simp only [projStep, hc, hs, habs]
  rw [if_neg hnb, if_neg hnp, hfilt, Finset.card_univ, Fintype.card_fin,
    if_neg (by norm_num : ¬ (3 = 0))]
  congr 1
  refine fin3_fun_ext ?_ ?_ ?_
  · show (if (1e-10 : ℝ) < 0.4 then
        (0.4 : ℝ) - (1 - 2 * u - 1.0) / ((3 : ℕ) : ℝ) else 0.4) = c5vec (u / 3) 0
    rw [if_pos (by norm_num), show c5vec (u / 3) 0 = 2 / 5 + 2 * (u / 3) from rfl]
    push_cast
    ring_nf
  · show (if (1e-10 : ℝ) < 93 / 317 + 11 / 3170 - u then
        (93 / 317 + 11 / 3170 - u : ℝ) - (1 - 2 * u - 1.0) / ((3 : ℕ) : ℝ)
        else 93 / 317 + 11 / 3170 - u) = c5vec (u / 3) 1
    rw [if_pos (by linarith),
      show c5vec (u / 3) 1 = 93 / 317 + 11 / 3170 - u / 3 from rfl]
    push_cast
    ring
  · show (if (1e-10 : ℝ) < 95 / 317 + 11 / 3170 - u then
        (95 / 317 + 11 / 3170 - u : ℝ) - (1 - 2 * u - 1.0) / ((3 : ℕ) : ℝ)
        else 95 / 317 + 11 / 3170 - u) = c5vec (u / 3) 2
    rw [if_pos (by linarith),
      show c5vec (u / 3) 2 = 95 / 317 + 11 / 3170 - u / 3 from rfl]
    push_cast
    ring

/-- The break of the projection loop: at residual `a/(2·3¹⁷)` the excess is
below the 1e-10 tolerance and the loop returns the clipped vector. -/
lemma c5_break :
    projStep (fun _ : Fin 3 => (0.4 : ℝ)) (c5vec (11 / (3170 * 3 ^ 17)))
      = Sum.inl c5final := by
  have hu0 : (0 : ℝ) ≤ 11 / (3170 * 3 ^ 17) := by positivity
  have hu2 : (11 / (3170 * 3 ^ 17) : ℝ) ≤ 11 / 3170 := by
    rw [div_le_div_iff (by positivity) (by norm_num)]
    nlinarith [(one_le_pow_of_one_le (show (1 : ℝ) ≤ 3 by norm_num) :
      (1 : ℝ) ≤ 3 ^ 17)]
  have hc := c5_clip_vec (11 / (3170 * 3 ^ 17)) hu0 hu2
  have hs := c5_sum_clip (11 / (3170 * 3 ^ 17))
  have habs : |(1 - 2 * (11 / (3170 * 3 ^ 17)) - 1.0 : ℝ)|
      = 2 * (11 / (3170 * 3 ^ 17)) := by
    rw [show (1 - 2 * (11 / (3170 * 3 ^ 17)) - 1.0 : ℝ)
        = -(2 * (11 / (3170 * 3 ^ 17))) by ring, abs_neg,
      abs_of_nonneg (by positivity)]
  have hbr : (2 * (11 / (3170 * 3 ^ 17)) : ℝ) < 1e-10 := by norm_num
  simp only [projStep, hc, hs, habs]
  rw [if_pos hbr]
  congr 1
  refine fin3_fun_ext ?_ ?_ ?_
  · show (0.4 : ℝ) = c5final 0
    rw [show c5final 0 = 2 / 5 from rfl]
    norm_num
  · rfl
  · rfl

/-- The loop trajectory: from residual `a/(2·3ᵏ)` with enough fuel, the loop
lands on `c5final`. -/
lemma c5_chain : ∀ (fuel k : ℕ), k ≤ 17 → 18 - k ≤ fuel →
    projLoop (fun _ : Fin 3 => (0.4 : ℝ)) fuel (c5vec (11 / (3170 * 3 ^ k)))
      = c5final := by
  intro fuel
  induction fuel with
  | zero =>
      intro k _ hf
      omega
  | succ f ih =>
      intro k h17 hf
      rcases eq_or_lt_of_le h17 with h17e | h17l
      · subst h17e
        exact projLoop_succ_inl c5_break f
      · have hk16 : k ≤ 16 := by omega
        have hT16 : (3 : ℝ) ^ k ≤ 3 ^ 16 :=
          pow_le_pow_right (by norm_num) hk16
        have hTpos : (0 : ℝ) < 3 ^ k := pow_pos (by norm_num) k
        have hb1 : (5e-11 : ℝ) ≤ 11 / (3170 * 3 ^ k) := by
          rw [le_div_iff (by positivity)]
          nlinarith
        have hb2 : (11 / (3170 * 3 ^ k) : ℝ) ≤ 11 / 3170 := by
          rw [div_le_div_iff (by positivity) (by norm_num)]
          nlinarith [(one_le_pow_of_one_le (show (1 : ℝ) ≤ 3 by norm_num) :
            (1 : ℝ) ≤ 3 ^ k)]
        have hdiv : (11 / (3170 * 3 ^ k) : ℝ) / 3 = 11 / (3170 * 3 ^ (k + 1)) := by
          rw [pow_succ]
          ring
        have hstep : projStep (fun _ : Fin 3 => (0.4 : ℝ)) (c5vec (11 / (3170 * 3 ^ k)))
            = Sum.inr (c5vec (11 / (3170 * 3 ^ (k + 1)))) := by
          rw [c5_step_u (11 / (3170 * 3 ^ k)) hb1 hb2, hdiv]
        rw [projLoop_succ_inr hstep f]
        exact ih (k + 1) (by omega) (by omega)

/-- The complete projection on the mock sub-universe. -/
lemma c5_proj3 :
    projectSimplexBounded c5raw (fun _ : Fin 3 => (0.4 : ℝ)) 50 = c5final := by
  rw [projectSimplexBounded_eq, c5_projInit, c5_chain 50 0 (by norm_num) (by norm_num)]
  have hcf : clipv (fun _ : Fin 3 => (0.4 : ℝ)) c5final = c5final := by
    refine fin3_fun_ext ?_ ?_ ?_
    · show min (max (c5final 0) 0) 0.4 = c5final 0
      rw [show c5final 0 = 2 / 5 from rfl, max_eq_left (by norm_num),
        min_eq_left (by norm_num)]
    · show min (max (c5final 1) 0) 0.4 = c5final 1
      rw [show c5final 1 = 93 / 317 + 11 / 3170 - c5u from rfl,
        max_eq_left (by norm_num [c5u]), min_eq_left (by norm_num [c5u])]
    · show min (max (c5final 2) 0) 0.4 = c5final 2
      rw [show c5final 2 = 95 / 317 + 11 / 3170 - c5u from rfl,
        max_eq_left (by norm_num [c5u]), min_eq_left (by norm_num [c5u])]
  rw [hcf]
  have hsf : (∑ i, c5final i) = 1 - 2 * c5u := by
    rw [Fin.sum_univ_three, show c5final 0 = 2 / 5 from rfl,
      show c5final 1 = 93 / 317 + 11 / 3170 - c5u from rfl,
      show c5final 2 = 95 / 317 + 11 / 3170 - c5u from rfl]
    ring
  simp only [projFinal, hsf]
  rw [if_neg]
  rintro ⟨h1, -⟩
  rw [show (1 - 2 * c5u - 1.0 : ℝ) = -(2 * c5u) by ring, abs_neg,
    abs_of_nonneg (by norm_num [c5u])] at h1
  norm_num [c5u] at h1

lemma c5_hm : 0 < ([0, 3, 4] : List (Fin 5)).length := by decide

lemma c5_contWeights :
    @contWeights 3 (by norm_num) (fun _ : Fin 3 => (0.4 : ℝ)) c5raw = c5final := by
  simp only [contWeights, c5_proj3, remediateWeights]
  rw [if_neg]
  rintro ⟨-, j, hj⟩
  refine (@fin3_forall (fun j => ¬ (c5final j < 0.05)) ?_ ?_ ?_) j hj
  · show ¬ (c5final 0 < 0.05)
    rw [show c5final 0 = 2 / 5 from rfl]
    norm_num
  · show ¬ (c5final 1 < 0.05)
    rw [show c5final 1 = 93 / 317 + 11 / 3170 - c5u from rfl]
    norm_num [c5u]
  · show ¬ (c5final 2 < 0.05)
    rw [show c5final 2 = 95 / 317 + 11 / 3170 - c5u from rfl]
    norm_num [c5u]

lemma c5_w2eq :
    contWeights c5_hm
      (fun j => (make_test_universe_assets (([0, 3, 4] : List (Fin 5)).get j)).max_weight)
      (rawWeights
        (fun j =>
          (make_test_universe_assets (([0, 3, 4] : List (Fin 5)).get j)).expected_return)
        (Matrix.of fun j k => make_test_universe_cov (([0, 3, 4] : List (Fin 5)).get j)
          (([0, 3, 4] : List (Fin 5)).get k)))
      = c5final := by
  have hub : (fun j =>
      (make_test_universe_assets (([0, 3, 4] : List (Fin 5)).get j)).max_weight)
      = fun _ : Fin 3 => (0.4 : ℝ) := by
    refine fin3_fun_ext ?_ ?_ ?_ <;>
      · rw [show (0.4 : ℝ) = 0.40 by norm_num]
        rfl
  have hmu : (fun j =>
      (make_test_universe_assets (([0, 3, 4] : List (Fin 5)).get j)).expected_return)
      = (![0.35, 0.30, 0.25] : Fin 3 → ℝ) := by
    refine fin3_fun_ext ?_ ?_ ?_ <;> rfl
  have hcov : (Matrix.of fun j k => make_test_universe_cov
      (([0, 3, 4] : List (Fin 5)).get j) (([0, 3, 4] : List (Fin 5)).get k)) = c5A := by
    refine fin3_fun_ext ?_ ?_ ?_ <;> refine fin3_fun_ext ?_ ?_ ?_ <;> rfl
  rw [hub, hmu, hcov, c5_rawWeights]
  exact c5_contWeights

/-- The exact energy of the winning sample. -/
lemma c5_energy_best :
    bqmEnergy (buildBQM 5 make_test_universe_assets make_test_universe_cov c5cfg) c5x
      = -0.51 := by
  rw [c5_energy]
  norm_num [show c5x 0 = true from rfl, show c5x 1 = false from rfl,
    show c5x 2 = false from rfl, show c5x 3 = true from rfl,
    show c5x 4 = true from rfl]

/-- Expected portfolio return of the mock run. -/
def c5ret : ℝ := 2 / 5 * 0.35 + c5w3 * 0.30 + c5w4 * 0.25

/-- The quadratic form `wᵀ Σ_S w` of the mock run. -/
def c5q : ℝ :=
  2 / 5 * (0.160 * (2 / 5) + 0.070 * c5w3 + 0.055 * c5w4)
    + c5w3 * (0.070 * (2 / 5) + 0.140 * c5w3 + 0.060 * c5w4)
    + c5w4 * (0.055 * (2 / 5) + 0.060 * c5w3 + 0.110 * c5w4)

lemma c5_opt :
    optimizeContinuousWeights make_test_universe_assets make_test_universe_cov [0, 3, 4]
      = (c5weights, c5ret, Real.sqrt c5q) := by
  rw [optimizeContinuousWeights_pos make_test_universe_assets make_test_universe_cov
    [0, 3, 4] c5_hm _ c5_w2eq.symm]
  show (fun i => ∑ j : Fin 3, if ([0, 3, 4] : List (Fin 5)).get j = i then c5final j else 0,
      ∑ j : Fin 3, c5final j
        * (make_test_universe_assets (([0, 3, 4] : List (Fin 5)).get j)).expected_return,
      Real.sqrt (∑ j : Fin 3, c5final j * (∑ k : Fin 3, make_test_universe_cov
        (([0, 3, 4] : List (Fin 5)).get j) (([0, 3, 4] : List (Fin 5)).get k) * c5final k)))
    = (c5weights, c5ret, Real.sqrt c5q)
  have hg0 : ([0, 3, 4] : List (Fin 5)).get (0 : Fin 3) = (0 : Fin 5) := rfl
  have hg1 : ([0, 3, 4] : List (Fin 5)).get (1 : Fin 3) = (3 : Fin 5) := rfl
  have hg2 : ([0, 3, 4] : List (Fin 5)).get (2 : Fin 3) = (4 : Fin 5) := rfl
  have h1 : (fun i => ∑ j : Fin 3,
      if ([0, 3, 4] : List (Fin 5)).get j = i then c5final j else 0) = c5weights := by
    refine fin5_fun_ext ?_ ?_ ?_ ?_ ?_
    · show (∑ j : Fin 3, if ([0, 3, 4] : List (Fin 5)).get j = (0 : Fin 5) then
          c5final j else 0) = c5weights 0
      rw [Fin.sum_univ_three, hg0, hg1, hg2, if_pos rfl,
        if_neg (by decide : ¬ ((3 : Fin 5) = 0)), if_neg (by decide : ¬ ((4 : Fin 5) = 0)),
        show c5final 0 = 2 / 5 from rfl, show c5weights 0 = 2 / 5 from rfl]
      ring
    · show (∑ j : Fin 3, if ([0, 3, 4] : List (Fin 5)).get j = (1 : Fin 5) then
          c5final j else 0) = c5weights 1
      rw [Fin.sum_univ_three, hg0, hg1, hg2, if_neg (by decide : ¬ ((0 : Fin 5) = 1)),
        if_neg (by decide : ¬ ((3 : Fin 5) = 1)), if_neg (by decide : ¬ ((4 : Fin 5) = 1)),
        show c5weights 1 = 0 from rfl]
      ring
    · show (∑ j : Fin 3, if ([0, 3, 4] : List (Fin 5)).get j = (2 : Fin 5) then
          c5final j else 0) = c5weights 2
      rw [Fin.sum_univ_three, hg0, hg1, hg2, if_neg (by decide : ¬ ((0 : Fin 5) = 2)),
        if_neg (by decide : ¬ ((3 : Fin 5) = 2)), if_neg (by decide : ¬ ((4 : Fin 5) = 2)),
        show c5weights 2 = 0 from rfl]
      ring
    · show (∑ j : Fin 3, if ([0, 3, 4] : List (Fin 5)).get j = (3 : Fin 5) then
          c5final j else 0) = c5weights 3
      rw [Fin.sum_univ_three, hg0, hg1, hg2, if_neg (by decide : ¬ ((0 : Fin 5) = 3)),
        if_pos rfl, if_neg (by decide : ¬ ((4 : Fin 5) = 3)),
        show c5final 1 = c5w3 from rfl, show c5weights 3 = c5w3 from rfl]
      ring
    · show (∑ j : Fin 3, if ([0, 3, 4] : List (Fin 5)).get j = (4 : Fin 5) then
          c5final j else 0) = c5weights 4
      rw [Fin.sum_univ_three, hg0, hg1, hg2, if_neg (by decide : ¬ ((0 : Fin 5) = 4)),
        if_neg (by decide : ¬ ((3 : Fin 5) = 4)), if_pos rfl,
        show c5final 2 = c5w4 from rfl, show c5weights 4 = c5w4 from rfl]
      ring
  have h2 : (∑ j : Fin 3, c5final j
      * (make_test_universe_assets (([0, 3, 4] : List (Fin 5)).get j)).expected_return)
      = c5ret := by
    rw [Fin.sum_univ_three, hg0, hg1, hg2]
    rw [show c5final 0 = 2 / 5 from rfl, show c5final 1 = c5w3 from rfl,
      show c5final 2 = c5w4 from rfl,
      show (make_test_universe_assets 0).expected_return = 0.35 from rfl,
      show (make_test_universe_assets 3).expected_return = 0.30 from rfl,
      show (make_test_universe_assets 4).expected_return = 0.25 from rfl, c5ret]
  have h3 : (∑ j : Fin 3, c5final j * (∑ k : Fin 3, make_test_universe_cov
      (([0, 3, 4] : List (Fin 5)).get j) (([0, 3, 4] : List (Fin 5)).get k) * c5final k))
      = c5q := by
    rw [Fin.sum_univ_three, hg0, hg1, hg2, Fin.sum_univ_three, Fin.sum_univ_three,
      Fin.sum_univ_three, hg0, hg1, hg2]
    rw [show c5final 0 = 2 / 5 from rfl, show c5final 1 = c5w3 from rfl,
      show c5final 2 = c5w4 from rfl,
      show make_test_universe_cov 0 0 = 0.160 from rfl,
      show make_test_universe_cov 0 3 = 0.070 from rfl,
      show make_test_universe_cov 0 4 = 0.055 from rfl,
      show make_test_universe_cov 3 0 = 0.070 from rfl,
      show make_test_universe_cov 3 3 = 0.140 from rfl,
      show make_test_universe_cov 3 4 = 0.060 from rfl,
      show make_test_universe_cov 4 0 = 0.055 from rfl,
      show make_test_universe_cov 4 3 = 0.060 from rfl,
      show make_test_universe_cov 4 4 = 0.110 from rfl, c5q]
  rw [h1, h2, h3]

/-- The optimization result of the mock pipeline run. -/
def c5opt (elapsed : ℝ) : OptimizationResult 5 :=
  ⟨c5x, -0.51, c5weights, c5ret, Real.sqrt c5q, elapsed, "ExactSolver", true, ""⟩

lemma c5_solve (elapsed : ℝ) :
    solveExact make_test_universe_assets make_test_universe_cov c5cfg elapsed
      = c5opt elapsed := by
  have hinf : ¬ ∃ i ∈ ([0, 3, 4] : List (Fin 5)),
      (make_test_universe_assets i).max_weight < c5weights i := by
    rintro ⟨i, hi, hlt⟩
    fin_cases hi
    · rw [show (make_test_universe_assets 0).max_weight = 0.40 from rfl,
        show c5weights 0 = 2 / 5 from rfl] at hlt
      norm_num at hlt
    · rw [show (make_test_universe_assets 3).max_weight = 0.40 from rfl,
        show c5weights 3 = c5w3 from rfl] at hlt
      norm_num [c5w3, c5u] at hlt
    · rw [show (make_test_universe_assets 4).max_weight = 0.40 from rfl,
        show c5weights 4 = c5w4 from rfl] at hlt
      norm_num [c5w4, c5u] at hlt
  simp only [solveExact, c5_best, solveFromSample, c5_sel, c5_opt]
  rw [if_neg hinf, if_neg hinf, c5_energy_best]
  rfl

/-- The serialized slippage list of the mock run. -/
def c5slip : List (String × SlippageEstimate) :=
  estimate_rebalance_slippage make_test_universe_assets c5x c5weights 50000

/-- Generic bound: the max-impact flag stays off when the volume fraction is
below `(max_impact/α)²` (the impact exponent is ≥ 1/2 and the fraction is
≤ 1, so `α·f^β ≤ α·√f ≤ max_impact`). -/
lemma exceeds_false_of_bounds (symbol : String) (order price : ℝ)
    (hα : 0 < (effParams symbol none).alpha)
    (hβ : 1 / 2 ≤ (effParams symbol none).beta)
    (hvol : 0 < MOCK_DAILY_VOLUMES symbol)
    (ho : 0 < order)
    (hf1 : order / MOCK_DAILY_VOLUMES symbol ≤ 1)
    (hmax : 0 ≤ (effParams symbol none).max_impact_pct)
    (hbound : order / MOCK_DAILY_VOLUMES symbol
      ≤ ((effParams symbol none).max_impact_pct / (effParams symbol none).alpha) ^ 2) :
    (estimate_market_impact symbol order none none price).exceeds_max_impact = false := by
  have hf0 : 0 < order / MOCK_DAILY_VOLUMES symbol := div_pos ho hvol
  have h1 : (order / MOCK_DAILY_VOLUMES symbol) ^ (effParams symbol none).beta
      ≤ (order / MOCK_DAILY_VOLUMES symbol) ^ ((1 : ℝ) / 2) :=
    Real.rpow_le_rpow_of_exponent_ge hf0 hf1 hβ
  have h2 : (order / MOCK_DAILY_VOLUMES symbol) ^ ((1 : ℝ) / 2)
      = Real.sqrt (order / MOCK_DAILY_VOLUMES symbol) :=
    (Real.sqrt_eq_rpow _).symm
  have h3 : Real.sqrt (order / MOCK_DAILY_VOLUMES symbol)
      ≤ (effParams symbol none).max_impact_pct / (effParams symbol none).alpha := by
    have hs := Real.sqrt_le_sqrt hbound
    rwa [Real.sqrt_sq (div_nonneg hmax (le_of_lt hα))] at hs
  have hle : (effParams symbol none).alpha
      * (order / MOCK_DAILY_VOLUMES symbol) ^ (effParams symbol none).beta
      ≤ (effParams symbol none).max_impact_pct := by
    calc (effParams symbol none).alpha
        * (order / MOCK_DAILY_VOLUMES symbol) ^ (effParams symbol none).beta
        ≤ (effParams symbol none).alpha
          * ((effParams symbol none).max_impact_pct / (effParams symbol none).alpha) :=
          mul_le_mul_of_nonneg_left (le_trans h1 (h2 ▸ h3)) (le_of_lt hα)
    _ = (effParams symbol none).max_impact_pct := by
        rw [mul_comm, div_mul_cancel₀ _ (ne_of_gt hα)]
  simp only [estimate_market_impact]
  rw [if_pos hvol]
  exact decide_eq_false (not_lt.mpr hle)

lemma c5_slippage_filter :
    ((List.finRange 5).filter fun i => c5x i && decide (0 < c5weights i)) = [0, 3, 4] := by
  have hfr : List.finRange 5 = [0, 1, 2, 3, 4] := by decide
  have hp0 : (c5x 0 && decide (0 < c5weights 0)) = true := by
    rw [show c5x 0 = true from rfl, Bool.true_and, decide_eq_true_eq,
      show c5weights 0 = 2 / 5 from rfl]
    norm_num
  have hp1 : (c5x 1 && decide (0 < c5weights 1)) = false := by
    rw [show c5x 1 = false from rfl, Bool.false_and]
  have hp2 : (c5x 2 && decide (0 < c5weights 2)) = false := by
    rw [show c5x 2 = false from rfl, Bool.false_and]
  have hp3 : (c5x 3 && decide (0 < c5weights 3)) = true := by
    rw [show c5x 3 = true from rfl, Bool.true_and, decide_eq_true_eq,
      show c5weights 3 = c5w3 from rfl]
    norm_num [c5w3, c5u]
  have hp4 : (c5x 4 && decide (0 < c5weights 4)) = true := by
    rw [show c5x 4 = true from rfl, Bool.true_and, decide_eq_true_eq,
      show c5weights 4 = c5w4 from rfl]
    norm_num [c5w4, c5u]
  rw [hfr]
  simp only [List.filter_cons, List.filter_nil, hp0, hp1, hp2, hp3, hp4]
  norm_num

lemma c5_slippage_flags : ∀ p ∈ c5slip, p.2.exceeds_max_impact = false := by
  have hlist : c5slip = [((make_test_universe_assets 0).symbol,
      estimate_market_impact (make_test_universe_assets 0).symbol
        (50000 * c5weights 0) none none 1.0),
    ((make_test_universe_assets 3).symbol,
      estimate_market_impact (make_test_universe_assets 3).symbol
        (50000 * c5weights 3) none none 1.0),
    ((make_test_universe_assets 4).symbol,
      estimate_market_impact (make_test_universe_assets 4).symbol
        (50000 * c5weights 4) none none 1.0)] := by
    simp only [c5slip, estimate_rebalance_slippage, c5_slippage_filter, List.map_cons,
      List.map_nil]
  rw [hlist]
  intro p hp
  simp only [List.mem_cons, List.not_mem_nil, or_false] at hp
  rcases hp with rfl | rfl | rfl
  · show (estimate_market_impact (make_test_universe_assets 0).symbol
      (50000 * c5weights 0) none none 1.0).exceeds_max_impact = false
    rw [show (make_test_universe_assets 0).symbol = "SUI" from rfl,
      show c5weights 0 = 2 / 5 from rfl]
    refine exceeds_false_of_bounds "SUI" (50000 * (2 / 5)) 1.0 ?_ ?_ ?_ ?_ ?_ ?_ ?_ <;>
      simp [effParams, ASSET_IMPACT_PARAMS, MOCK_DAILY_VOLUMES] <;> norm_num
  · show (estimate_market_impact (make_test_universe_assets 3).symbol
      (50000 * c5weights 3) none none 1.0).exceeds_max_impact = false
    rw [show (make_test_universe_assets 3).symbol = "SOL" from rfl,
      show c5weights 3 = c5w3 from rfl]
    refine exceeds_false_of_bounds "SOL" (50000 * c5w3) 1.0 ?_ ?_ ?_ ?_ ?_ ?_ ?_ <;>
      simp [effParams, ASSET_IMPACT_PARAMS, MOCK_DAILY_VOLUMES] <;>
      norm_num [c5w3, c5u]
  · show (estimate_market_impact (make_test_universe_assets 4).symbol
      (50000 * c5weights 4) none none 1.0).exceeds_max_impact = false
    rw [show (make_test_universe_assets 4).symbol = "AVAX" from rfl,
      show c5weights 4 = c5w4 from rfl]
    refine exceeds_false_of_bounds "AVAX" (50000 * c5w4) 1.0 ?_ ?_ ?_ ?_ ?_ ?_ ?_ <;>
      simp [effParams, ASSET_IMPACT_PARAMS, MOCK_DAILY_VOLUMES] <;>
      norm_num [c5w4, c5u]

lemma fin5_forall {P : Fin 5 → Prop} (h0 : P 0) (h1 : P 1) (h2 : P 2) (h3 : P 3)
    (h4 : P 4) : ∀ i, P i := by
  intro i
  fin_cases i
  exacts [h0, h1, h2, h3, h4]

lemma c5_sqrt_le : Real.sqrt c5q ≤ 0.3 := by
  have h : c5q ≤ 0.09 := by
    norm_num [c5q, c5w3, c5w4, c5u]
  calc Real.sqrt c5q ≤ Real.sqrt 0.09 := Real.sqrt_le_sqrt h
  _ = 0.3 := by
    rw [show (0.09 : ℝ) = 0.3 ^ 2 by norm_num, Real.sqrt_sq (by norm_num)]

lemma c5_maxw : maxWeightVal c5weights ≤ 0.4 := by
  have hfr : List.finRange 5 = [0, 1, 2, 3, 4] := by decide
  simp only [maxWeightVal, hfr, List.map_cons, List.map_nil, List.foldl_cons,
    List.foldl_nil]
  refine max_le (max_le (max_le (max_le ?_ ?_) ?_) ?_) ?_
  · rw [show c5weights 0 = 2 / 5 from rfl]
    norm_num
  · rw [show c5weights 1 = 0 from rfl]
    norm_num
  · rw [show c5weights 2 = 0 from rfl]
    norm_num
  · rw [show c5weights 3 = c5w3 from rfl]
    norm_num [c5w3, c5u]
  · rw [show c5weights 4 = c5w4 from rfl]
    norm_num [c5w4, c5u]

lemma c5_checks (elapsed : ℝ) (he : elapsed ≤ 5) :
    (computeChecks (c5opt elapsed) c5slip).allPassed = true := by
  rw [allPassed_iff]
  refine ⟨rfl, ?_, ?_, ?_, ?_, ?_, Or.inr c5_slippage_flags⟩
  · show maxWeightVal c5weights ≤ MAX_POSITION_WEIGHT
    rw [show MAX_POSITION_WEIGHT = 0.4 by norm_num [MAX_POSITION_WEIGHT]]
    exact c5_maxw
  · show Real.sqrt c5q ≤ MAX_PORTFOLIO_RISK
    refine le_trans c5_sqrt_le ?_
    norm_num [MAX_PORTFOLIO_RISK]
  · show MIN_EXPECTED_RETURN ≤ c5ret
    norm_num [MIN_EXPECTED_RETURN, c5ret, c5w3, c5w4, c5u]
  · show elapsed ≤ MAX_SOLVER_TIME_S
    rw [show MAX_SOLVER_TIME_S = 5 by norm_num [MAX_SOLVER_TIME_S]]
    exact he
  · show 1 ≤ numSelected c5x
    decide

lemma c5_sum_weights : (∑ i, c5weights i) = 2 / 5 + c5w3 + c5w4 := by
  rw [Fin.sum_univ_five, show c5weights 0 = 2 / 5 from rfl,
    show c5weights 1 = 0 from rfl, show c5weights 2 = 0 from rfl,
    show c5weights 3 = c5w3 from rfl, show c5weights 4 = c5w4 from rfl]
  ring

lemma c5_estval (elapsed : ℝ) :
    APPROVAL_THRESHOLD_USD < estimatedValue (c5opt elapsed) := by
  have hsum : (∑ i : Fin 5, if 0 < c5weights i then c5weights i else 0)
      = 2 / 5 + c5w3 + c5w4 := by
    rw [Fin.sum_univ_five,
      if_pos (show (0 : ℝ) < c5weights 0 by
        rw [show c5weights 0 = 2 / 5 from rfl]; norm_num),
      if_neg (show ¬ ((0 : ℝ) < c5weights 1) by
        rw [show c5weights 1 = 0 from rfl]; norm_num),
      if_neg (show ¬ ((0 : ℝ) < c5weights 2) by
        rw [show c5weights 2 = 0 from rfl]; norm_num),
      if_pos (show (0 : ℝ) < c5weights 3 by
        rw [show c5weights 3 = c5w3 from rfl]; norm_num [c5w3, c5u]),
      if_pos (show (0 : ℝ) < c5weights 4 by
        rw [show c5weights 4 = c5w4 from rfl]; norm_num [c5w4, c5u]),
      show c5weights 0 = 2 / 5 from rfl, show c5weights 3 = c5w3 from rfl,
      show c5weights 4 = c5w4 from rfl]
    ring
  show APPROVAL_THRESHOLD_USD
    < (∑ i, if 0 < c5weights i then c5weights i else 0) * MAX_DAILY_VOLUME_USD
  rw [hsum]
  norm_num [APPROVAL_THRESHOLD_USD, MAX_DAILY_VOLUME_USD, c5w3, c5w4, c5u]

lemma c5_reasons (elapsed : ℝ) : approvalReasons (c5opt elapsed) ≠ [] :=
  (approvalReasons_ne_iff (c5opt elapsed)).mpr (Or.inl (c5_estval elapsed))

lemma c5_risk_result (elapsed : ℝ) (he : elapsed ≤ 5) :
    risk_agent_run (some (c5opt elapsed)) c5slip
      = { checks := some (computeChecks (c5opt elapsed) c5slip), risk_approved := true,
          status := "pending_approval", requires_approval := true,
          approval_reasons := approvalReasons (c5opt elapsed),
          failed_checks := (computeChecks (c5opt elapsed) c5slip).failedNames } :=
  risk_agent_run_pending _ _ (c5_checks elapsed he) (c5_reasons elapsed)

lemma c5_pipeline (elapsed : ℝ) :
    run_pipeline_mock 0.5 (fun _ => 0) elapsed
      = (risk_agent_run (some (c5opt elapsed)) c5slip, c5opt elapsed) := by
  simp only [run_pipeline_mock, market_adjust_zero, c5_exec, c5_solve,
    show ∀ e : ℝ, (c5opt e).allocation = c5x from fun _ => rfl,
    show ∀ e : ℝ, (c5opt e).weights = c5weights from fun _ => rfl, c5slip]

/-- C5 (counterexample): on the documented 5-asset mock universe at
`risk_tolerance = 0.5` (zero sentiment noise, instantaneous solve), the
pipeline does NOT terminate with status `approved`: the estimated trade
value `(Σ active weights)·MAX_DAILY_VOLUME_USD ≈ $1,000,000` exceeds the
$50,000 approval threshold, so the terminal status is `pending_approval`. -/
theorem c5_pipeline_counterexample :
    (run_pipeline_mock 0.5 (fun _ => 0) 0).1.status = "pending_approval" ∧
    (run_pipeline_mock 0.5 (fun _ => 0) 0).1.status ≠ "approved" := by
  have h := c5_pipeline 0
  have hr := c5_risk_result 0 (by norm_num)
  rw [h]
  dsimp only
  rw [hr]
  exact ⟨rfl, by decide⟩

/-- C5 (amended): on the 5-asset mock universe at `risk_tolerance = 0.5`
with zero sentiment noise and a solver wall time of at most 5 s, the
pipeline selects exactly 3 assets ({SUI, SOL, AVAX}), every selected weight
lies in `[0.05, 0.40]`, the weights sum to 1 within 1e-6, all seven risk
checks pass and `risk_approved` is true — but the terminal status is
`pending_approval` with non-empty approval reasons (estimated trade value
above $50,000), not `approved`. -/
theorem c5_pipeline_amended (elapsed : ℝ) (he : elapsed ≤ 5) :
    numSelected (run_pipeline_mock 0.5 (fun _ => 0) elapsed).2.allocation = 3 ∧
    (∀ i, (run_pipeline_mock 0.5 (fun _ => 0) elapsed).2.allocation i = true →
      0.05 ≤ (run_pipeline_mock 0.5 (fun _ => 0) elapsed).2.weights i ∧
      (run_pipeline_mock 0.5 (fun _ => 0) elapsed).2.weights i ≤ 0.40) ∧
    |(∑ i, (run_pipeline_mock 0.5 (fun _ => 0) elapsed).2.weights i) - 1| ≤ 1e-6 ∧
    (∃ c, (run_pipeline_mock 0.5 (fun _ => 0) elapsed).1.checks = some c ∧
      c.allPassed = true) ∧
    (run_pipeline_mock 0.5 (fun _ => 0) elapsed).1.risk_approved = true ∧
    (run_pipeline_mock 0.5 (fun _ => 0) elapsed).1.status = "pending_approval" ∧
    (run_pipeline_mock 0.5 (fun _ => 0) elapsed).1.approval_reasons ≠ [] := by
  rw [c5_pipeline elapsed]
  dsimp only
  rw [c5_risk_result elapsed he]
  refine ⟨?_, ?_, ?_, ⟨_, rfl, c5_checks elapsed he⟩, rfl, rfl, c5_reasons elapsed⟩
  · show numSelected c5x = 3
    decide
  · show ∀ i, c5x i = true → 0.05 ≤ c5weights i ∧ c5weights i ≤ 0.40
    refine fin5_forall ?_ ?_ ?_ ?_ ?_
    · intro _
      rw [show c5weights 0 = 2 / 5 from rfl]
      norm_num
    · intro habs
      exact absurd habs (by decide)
    · intro habs
      exact absurd habs (by decide)
    · intro _
      rw [show c5weights 3 = c5w3 from rfl]
      norm_num [c5w3, c5u]
    · intro _
      rw [show c5weights 4 = c5w4 from rfl]
      norm_num [c5w4, c5u]
  · show |(∑ i, c5weights i) - 1| ≤ 1e-6
    rw [c5_sum_weights]
    rw [show (2 / 5 + c5w3 + c5w4 - 1 : ℝ) = -(2 * c5u) by
      rw [c5w3, c5w4]; ring, abs_neg, abs_of_nonneg (by norm_num [c5u])]
    norm_num [c5u]

/-- Witness for `c5_pipeline_amended` at `elapsed = 0`. -/
theorem c5_pipeline_amended_witness :
    (0 : ℝ) ≤ 5 ∧
    (run_pipeline_mock 0.5 (fun _ => 0) 0).1.risk_approved = true ∧
    (run_pipeline_mock 0.5 (fun _ => 0) 0).1.status = "pending_approval" :=
  ⟨by norm_num, (c5_pipeline_amended 0 (by norm_num)).2.2.2.2.1,
    (c5_pipeline_amended 0 (by norm_num)).2.2.2.2.2.1⟩

end EthOxford
